import Mathlib

/-!
# Pet Roam locomotion controller (`src/Examination/components.js`, section 9)

A shallow embedding of the `pet-roam` component: the module constants, the two helpers
`pointInObstacle` and `clampToBounds`, `init`, `tick` and `_setAnimationTimeScale`.

Numbers are exact rationals.  The three library calls whose results are not rational
(`Math.sqrt`, `Math.hypot`, `Math.atan2 … * (180 / Math.PI)`) are fields of a `MathLib`
record that every definition takes as a parameter; `refMath` is one executable instance,
exact on squares of rationals and on the eight compass directions.
-/

namespace PetRoam

/-! ## Data model -/

/-- The numeric library of the host: `Math.sqrt`, `Math.hypot`, and
`Math.atan2(a, b) * (180 / Math.PI)` (the only way the source uses `atan2`). -/
structure MathLib where
  sqrt : ℚ → ℚ
  hypot : ℚ → ℚ → ℚ
  atan2Deg : ℚ → ℚ → ℚ

/-- An axis-aligned rectangle `{ minX, maxX, minZ, maxZ }` (an obstacle, or the bounds). -/
structure Rect where
  minX : ℚ
  maxX : ℚ
  minZ : ℚ
  maxZ : ℚ
deriving DecidableEq, Repr

/-- A path entry `{ x, z }`. -/
structure Waypoint where
  x : ℚ
  z : ℚ
deriving DecidableEq, Repr

/-- An entity attribute `{ x, y, z }`. -/
structure Vec3 where
  x : ℚ
  y : ℚ
  z : ℚ
deriving DecidableEq, Repr

def GROUND_Y : ℚ := 0
def TURN_SPEED_DEG : ℚ := 220
def ACCEL_RATE : ℚ := 3.5
def ANGLE_THRESHOLD_DEG : ℚ := 38
def DEFAULT_STRIDE_M : ℚ := 0.45

def OBSTACLES : List Rect :=
  [ { minX := -6.5, maxX := 6.5, minZ := -5.5, maxZ := 5.5 },
    { minX := 7, maxX := 13, minZ := -2.5, maxZ := 2.5 },
    { minX := -2.2, maxX := 2.2, minZ := 6.4, maxZ := 8.6 } ]

def BOUNDS : Rect := { minX := -7.5, maxX := 17.5, minZ := -7.5, maxZ := 13.5 }

/-- The loop of `pointInObstacle`, over an arbitrary obstacle list. -/
def pointInObstacleIn (obs : List Rect) (x z : ℚ) : Bool :=
  obs.any fun o => decide (x ≥ o.minX ∧ x ≤ o.maxX ∧ z ≥ o.minZ ∧ z ≤ o.maxZ)

/-- The source function `pointInObstacle(x, z)`: the loop over the constant `OBSTACLES`. -/
def pointInObstacle (x z : ℚ) : Bool := pointInObstacleIn OBSTACLES x z

/-- The source function `clampToBounds(p)`: rewrites `p.x` and `p.z`, leaves `p.y`. -/
def clampToBounds (p : Vec3) : Vec3 :=
  { p with
    x := max BOUNDS.minX (min BOUNDS.maxX p.x)
    z := max BOUNDS.minZ (min BOUNDS.maxZ p.z) }

/-- The component schema (`this.data`), with the defaults of the source. -/
structure Data where
  speed : ℚ := 0.7
  path : List Waypoint := []
  proximity : ℚ := 5
  turnSpeed : ℚ := TURN_SPEED_DEG
  idleTimeScale : ℚ := 0.2
  moveTimeScale : ℚ := 1
  stride : ℚ := DEFAULT_STRIDE_M
  accelRate : ℚ := ACCEL_RATE
deriving DecidableEq, Repr

/-- What `tick` reads of `this.el.components['animation-mixer']`.
`clipDuration = 0` stands for a missing (falsy) value; `activeAction` is
`mixer.mixer && mixer.activeAction`. -/
structure Mixer where
  rootMotionNode : Bool
  clipDuration : ℚ
  activeAction : Bool
deriving DecidableEq, Repr

/-- The two world positions read when the element `#camera` exists. -/
structure Observer where
  camWorld : Vec3
  petWorld : Vec3
deriving DecidableEq, Repr

/-- Everything a tick reads from outside the component: the frame time `dt` in
milliseconds, the camera (if the document has one) and the animation mixer (if attached). -/
structure Env where
  dt : ℚ
  cam : Option Observer
  mixer : Option Mixer
deriving DecidableEq, Repr

/-- The mutable state: the fields of `this`, the entity attributes `position` and
`rotation`, and the `timeScale` of the mixer's active action. -/
structure State where
  data : Data
  path : List Waypoint
  waypointIndex : ℕ
  currentRotationY : ℚ
  currentSpeed : ℚ
  moving : Bool
  groundOffset : Option ℚ
  position : Vec3
  rotation : Vec3
  timeScale : ℚ
deriving DecidableEq, Repr

/-! ## Heading normalisation -/

/-- The loop `while (diff > 180) diff -= 360`. -/
def wrapDown (d : ℚ) : ℚ :=
  if 180 < d then wrapDown (d - 360) else d
termination_by (⌈d / 360⌉).toNat
decreasing_by
  have h1 : (d - 360) / 360 = d / 360 - 1 := by ring
  have h2 : 0 < ⌈d / 360⌉ := Int.ceil_pos.mpr (by linarith)
  rw [h1, Int.ceil_sub_one]
  omega

/-- The loop `while (diff < -180) diff += 360`. -/
def wrapUp (d : ℚ) : ℚ :=
  if d < -180 then wrapUp (d + 360) else d
termination_by (⌈-d / 360⌉).toNat
decreasing_by
  have h1 : -(d + 360) / 360 = -d / 360 - 1 := by ring
  have h2 : 0 < ⌈-d / 360⌉ := Int.ceil_pos.mpr (by linarith)
  rw [h1, Int.ceil_sub_one]
  omega

/-- Both loops in the order of the source. -/
def normalizeDiff (d : ℚ) : ℚ := wrapUp (wrapDown d)

/-- The function `Math.sign` on rationals. -/
def mathSign (q : ℚ) : ℚ := if 0 < q then 1 else if q < 0 then -1 else 0

/-! ## The component -/

/-- The built-in loop that `init` uses when `data.path` is empty. -/
def defaultPath : List Waypoint :=
  [ ⟨2, 7⟩, ⟨3.5, 7.5⟩, ⟨4, 7⟩, ⟨3, 6.5⟩, ⟨1.5, 6.8⟩, ⟨0, 7.2⟩, ⟨-1, 7⟩, ⟨0.5, 7.5⟩, ⟨2, 7⟩ ]

/-- The method `init`, given the schema data and the entity attributes at attach time.
`start` is `this.path[0]`; `this.path[1]?.x ?? start.x` falls back to `start`. -/
def init (M : MathLib) (data : Data) (elPosition elRotation : Vec3) (elTimeScale : ℚ) : State :=
  let path := if data.path.length > 0 then data.path else defaultPath
  let start := path.getD 0 ⟨0, 0⟩
  let next := path.getD 1 start
  { data := data
    path := path
    waypointIndex := 0
    currentRotationY := M.atan2Deg (next.x - start.x) (next.z - start.z)
    currentSpeed := 0
    moving := false
    groundOffset := none
    position := { x := start.x, y := elPosition.y, z := start.z }
    rotation := elRotation
    timeScale := elTimeScale }

/-- The method `_setAnimationTimeScale`: writes only when the mixer has an active action. -/
def setAnimationTimeScale (e : Env) (s : State) (scale : ℚ) : State :=
  match e.mixer with
  | some m => if m.activeAction then { s with timeScale := scale } else s
  | none => s

/-- The assignment `this.waypointIndex = (this.waypointIndex + 1) % path.length`. -/
def advance (s : State) : State :=
  { s with waypointIndex := (s.waypointIndex + 1) % s.path.length }

/-- `dtSec = Math.min(dt / 1000, 0.1)`. -/
def dtSec (e : Env) : ℚ := min (e.dt / 1000) 0.1

/-- `idx = this.waypointIndex % path.length`. -/
def idx (s : State) : ℕ := s.waypointIndex % s.path.length

/-- `target = path[(idx + 1) % path.length]` (the index is in range for a non-empty path). -/
def target (s : State) : Waypoint := s.path.getD ((idx s + 1) % s.path.length) ⟨0, 0⟩

def dx (s : State) : ℚ := (target s).x - s.position.x

def dz (s : State) : ℚ := (target s).z - s.position.z

/-- `dist = Math.sqrt(dx * dx + dz * dz)`. -/
def dist (M : MathLib) (s : State) : ℚ := M.sqrt (dx s * dx s + dz s * dz s)

/-- `turnSpeed = this.data.turnSpeed * dtSec`. -/
def turnSpeed (s : State) (e : Env) : ℚ := s.data.turnSpeed * dtSec e

/-- The desired heading `headY`: the bearing of the waypoint, replaced by the bearing of
the camera when a camera exists, `proximity > 0` and the camera is closer than `proximity`. -/
def headY (M : MathLib) (s : State) (e : Env) : ℚ :=
  match e.cam with
  | some c =>
    if s.data.proximity > 0 ∧
        M.hypot (c.camWorld.x - c.petWorld.x) (c.camWorld.z - c.petWorld.z) < s.data.proximity
    then M.atan2Deg (c.camWorld.x - c.petWorld.x) (c.camWorld.z - c.petWorld.z)
    else M.atan2Deg (dx s) (dz s)
  | none => M.atan2Deg (dx s) (dz s)

/-- The variable `diff` after the two normalisation loops. -/
def diff (M : MathLib) (s : State) (e : Env) : ℚ :=
  normalizeDiff (headY M s e - s.currentRotationY)

/-- The amount added to `currentRotationY`:
`Math.sign(diff) * Math.min(Math.abs(diff), turnSpeed)`. -/
def turnStep (M : MathLib) (s : State) (e : Env) : ℚ :=
  mathSign (diff M s e) * min |diff M s e| (turnSpeed s e)

/-- `hasRootMotion = !!(mixerComp && mixerComp.rootMotionNode)`. -/
def hasRootMotion (e : Env) : Bool :=
  match e.mixer with
  | some m => m.rootMotionNode
  | none => false

/-- `clipDuration = (mixerComp && mixerComp.clipDuration) || 1`. -/
def clipDuration (e : Env) : ℚ :=
  match e.mixer with
  | some m => if m.clipDuration = 0 then 1 else m.clipDuration
  | none => 1

/-- `angleOk = Math.abs(diff) < ANGLE_THRESHOLD_DEG`. -/
def angleOk (M : MathLib) (s : State) (e : Env) : Bool :=
  decide (|diff M s e| < ANGLE_THRESHOLD_DEG)

/-- `targetSpeedRaw = clipDuration > 0 ? stride / clipDuration : this.data.speed`. -/
def targetSpeedRaw (s : State) (e : Env) : ℚ :=
  if clipDuration e > 0 then s.data.stride / clipDuration e else s.data.speed

def stopDist : ℚ := 1.2

/-- The braking ramp `targetSpeed`. -/
def targetSpeed (M : MathLib) (s : State) (e : Env) : ℚ :=
  if dist M s ≤ stopDist then 0
  else if dist M s < stopDist + 0.8 then targetSpeedRaw s e * (dist M s - stopDist) / 0.8
  else targetSpeedRaw s e

/-- The half-stride probe point handed to `pointInObstacle` inside `wantMove`. -/
def probe (M : MathLib) (s : State) : ℚ × ℚ :=
  (s.position.x + (dx s / dist M s) * s.data.stride * 0.5,
   s.position.z + (dz s / dist M s) * s.data.stride * 0.5)

/-- `wantMove = angleOk && dist > stopDist && !pointInObstacle(probe)`. -/
def wantMove (obs : List Rect) (M : MathLib) (s : State) (e : Env) : Bool :=
  angleOk M s e && decide (dist M s > stopDist) &&
    !pointInObstacleIn obs (probe M s).1 (probe M s).2

/-- `accel = Math.min(1, this.data.accelRate * dtSec)`. -/
def accel (s : State) (e : Env) : ℚ := min 1 (s.data.accelRate * dtSec e)

/-- The value of `this.currentSpeed` after the blend and the clamp.  The source names the
blend target `target` (a second `const target` in the body of `tick`); it is the local
`tgt` here, distinct from the waypoint `target`. -/
def newSpeed (obs : List Rect) (M : MathLib) (s : State) (e : Env) : ℚ :=
  let tgt := if wantMove obs M s e then targetSpeed M s e else 0
  let blended := s.currentSpeed + (tgt - s.currentSpeed) * accel s e
  max 0 (min (targetSpeedRaw s e * 1.05) blended)

/-- The landing point `{ x: nx, y: pos.y, z: nz }` before clamping. -/
def landing (obs : List Rect) (M : MathLib) (s : State) (e : Env) : Vec3 :=
  let moveDist := newSpeed obs M s e * dtSec e
  { x := s.position.x + (dx s / dist M s) * moveDist
    y := s.position.y
    z := s.position.z + (dz s / dist M s) * moveDist }

/-- The value of `this._groundOffset` after the capture at the top of `tick`. -/
def groundOffsetOf (s : State) : ℚ :=
  match s.groundOffset with
  | some g => g
  | none => s.position.y - GROUND_Y

/-- The state after the heading update (the statements shared by both modes). -/
def turned (M : MathLib) (s : State) (e : Env) : State :=
  { s with
    groundOffset := some (groundOffsetOf s)
    currentRotationY := s.currentRotationY + turnStep M s e
    rotation := { x := 0, y := s.currentRotationY + turnStep M s e, z := 0 } }

/-- The three statements run at each waypoint skip: advance, mark idle, idle time-scale. -/
def skipWaypoint (e : Env) (s : State) : State :=
  setAnimationTimeScale e { advance s with moving := false } s.data.idleTimeScale

/-- The branch `if (hasRootMotion) { … return; }`. -/
def rootMotionBranch (obs : List Rect) (M : MathLib) (s : State) (e : Env) : State :=
  let s1 := turned M s e
  let s2 :=
    if dist M s ≤ 0.6 then skipWaypoint e s1
    else
      let mv := angleOk M s e
      setAnimationTimeScale e { s1 with moving := mv }
        (if mv then s.data.moveTimeScale else s.data.idleTimeScale)
  let nextPos := clampToBounds s.position
  let s3 := if pointInObstacleIn obs nextPos.x nextPos.z then advance s2 else s2
  { s3 with position := { nextPos with y := GROUND_Y + groundOffsetOf s } }

/-- The early-return test of the procedural branch:
`dist <= this.currentSpeed * dtSec * 2 || dist <= stopDist`, after the speed update. -/
def arrives (obs : List Rect) (M : MathLib) (s : State) (e : Env) : Prop :=
  dist M s ≤ newSpeed obs M s e * dtSec e * 2 ∨ dist M s ≤ stopDist

instance (obs : List Rect) (M : MathLib) (s : State) (e : Env) : Decidable (arrives obs M s e) := by
  unfold arrives; infer_instance

/-- The obstacle test on the clamped landing point of the procedural branch. -/
def blocked (obs : List Rect) (M : MathLib) (s : State) (e : Env) : Prop :=
  pointInObstacleIn obs (clampToBounds (landing obs M s e)).x
    (clampToBounds (landing obs M s e)).z = true

instance (obs : List Rect) (M : MathLib) (s : State) (e : Env) : Decidable (blocked obs M s e) := by
  unfold blocked; infer_instance

/-- The rest of `tick` (procedural stride). -/
def proceduralBranch (obs : List Rect) (M : MathLib) (s : State) (e : Env) : State :=
  let s1 := { turned M s e with currentSpeed := newSpeed obs M s e }
  if arrives obs M s e then skipWaypoint e s1
  else if blocked obs M s e then skipWaypoint e s1
  else
    let nextPos := clampToBounds (landing obs M s e)
    let mv := decide (s1.currentSpeed > 0.01)
    setAnimationTimeScale e
      { s1 with position := { nextPos with y := GROUND_Y + groundOffsetOf s }, moving := mv }
      (if mv then 1 else s.data.idleTimeScale)

/-- The method `tick(_t, dt)` over an arbitrary obstacle list. -/
def tickIn (obs : List Rect) (M : MathLib) (s : State) (e : Env) : State :=
  if s.path.length < 2 then s
  else if hasRootMotion e then rootMotionBranch obs M s e
  else proceduralBranch obs M s e

/-- The method `tick(_t, dt)` of the source: the obstacle list is the constant `OBSTACLES`. -/
def tick (M : MathLib) (s : State) (e : Env) : State := tickIn OBSTACLES M s e

/-- A run of consecutive ticks, one environment per frame. -/
def runIn (obs : List Rect) (M : MathLib) (s : State) (es : List Env) : State :=
  es.foldl (tickIn obs M) s

/-- A run of consecutive ticks of the source `tick`. -/
def run (M : MathLib) (s : State) (es : List Env) : State := runIn OBSTACLES M s es

/-- The predicate "inside World Bounds" on the ground plane. -/
def inBounds (p : Vec3) : Prop :=
  BOUNDS.minX ≤ p.x ∧ p.x ≤ BOUNDS.maxX ∧ BOUNDS.minZ ≤ p.z ∧ p.z ≤ BOUNDS.maxZ

instance (p : Vec3) : Decidable (inBounds p) := by unfold inBounds; infer_instance

/-! ## An executable numeric library -/

/-- A square root on `num / den`: the integer square root of `num * den` over `den`,
rounded up to the next multiple of `1 / den` unless it is exact.  It is exact on squares of
rationals and never below the real square root. -/
def refSqrt (q : ℚ) : ℚ :=
  let n := Nat.sqrt (q.num.toNat * q.den)
  if n * n = q.num.toNat * q.den then (n : ℚ) / (q.den : ℚ) else ((n : ℚ) + 1) / (q.den : ℚ)

/-- A bearing in degrees, exact on the eight compass directions and linear in the
tangent inside each octant; `refAtan2Deg 0 0 = 0` as for `Math.atan2(0, 0)`. -/
def refAtan2Deg (a b : ℚ) : ℚ :=
  if a = 0 ∧ b = 0 then 0
  else
    let ang := if |a| ≤ |b| then 45 * (|a| / |b|) else 90 - 45 * (|b| / |a|)
    let full := if 0 ≤ b then ang else 180 - ang
    if 0 ≤ a then full else -full

def refMath : MathLib :=
  { sqrt := refSqrt
    hypot := fun a b => refSqrt (a * a + b * b)
    atan2Deg := refAtan2Deg }

/-! ## Concrete scenarios -/

/-- A frame of 16 ms with no camera and no animation mixer (procedural stride). -/
def plainFrame : Env := { dt := 16, cam := none, mixer := none }

/-- The state right after `init` on a two-point path whose start (100, 100) is outside
the bounds and one unit away from the next waypoint. -/
def farStart : State :=
  init refMath { path := [⟨100, 100⟩, ⟨100, 101⟩] } ⟨0, 0, 0⟩ ⟨0, 0, 0⟩ 1

/-- The state right after `init` on a two-point path in free space, inside the bounds. -/
def freeStart : State :=
  init refMath { path := [⟨15, 5⟩, ⟨15, 10⟩] } ⟨0, 0, 0⟩ ⟨0, 0, 0⟩ 1

/-- The state `freeStart` with a negative stride in the schema data. -/
def backStart : State :=
  init refMath { path := [⟨15, 5⟩, ⟨15, 10⟩], stride := -1 } ⟨0, 0, 0⟩ ⟨0, 0, 0⟩ 1

/-- The state right after `init` on a path whose second waypoint lies due south of the
first: the initial heading is 180. -/
def southStart : State :=
  init refMath { path := [⟨0, 0⟩, ⟨0, -1⟩] } ⟨0, 0, 0⟩ ⟨0, 0, 0⟩ 1

/-- A frame of 16 ms with the camera one unit due north of the pet, no mixer. -/
def northCamFrame : Env :=
  { dt := 16, cam := some { camWorld := ⟨0, 0, 1⟩, petWorld := ⟨0, 0, 0⟩ }, mixer := none }

/-- A state on a path of length one. -/
def lonelyStart : State :=
  init refMath { path := [⟨1, 1⟩] } ⟨0, 0, 0⟩ ⟨0, 0, 0⟩ 1

/-- The two-point path of the looping scenario. -/
def loopPath : List Waypoint := [⟨0, 0⟩, ⟨10, 0⟩]

/-- The state right after `init` on `loopPath` with the default schema values: the agent
stands at (0, 0) with heading 90, towards (10, 0). -/
def loopStart : State :=
  init refMath { path := loopPath } ⟨0, 0, 0⟩ ⟨0, 0, 0⟩ 1

/-- A frame of `dt` milliseconds with no camera and no animation mixer. -/
def steadyFrame (dt : ℚ) : Env := { dt := dt, cam := none, mixer := none }

/-- Invariant of the looping scenario in the scene of the source: the agent is parked at
its start with zero speed. -/
def Parked (s : State) : Prop :=
  s.path = loopPath ∧ s.data.stride = 0.45 ∧ s.position = ⟨0, 0, 0⟩ ∧ s.currentSpeed = 0

/-- The same scenario moved to a lane of the source scene that touches no obstacle: the
segment from (-5, 10) to (5, 10). -/
def lanePath : List Waypoint := [⟨-5, 10⟩, ⟨5, 10⟩]

/-- The state right after `init` on `lanePath` with the default schema values. -/
def laneStart : State :=
  init refMath { path := lanePath } ⟨0, 0, 0⟩ ⟨0, 0, 0⟩ 1

/-- Invariant of a walk along the lane `z = c` from `(a, c)` towards `(g, c)`: the agent
is on the lane, still farther than the stop distance from `(g, c)`, facing it, and its
speed is at most the default cruising speed and at most the distance left to the stop
radius. -/
def Approaching (a g c : ℚ) (s : State) : Prop :=
  s.path = [⟨a, c⟩, ⟨g, c⟩] ∧ s.data.stride = 0.45 ∧ s.data.accelRate = 3.5 ∧
    s.waypointIndex = 0 ∧ s.currentRotationY = 90 ∧ s.position.z = c ∧
    -7.5 ≤ s.position.x ∧ s.position.x < g - 1.2 ∧
    0 ≤ s.currentSpeed ∧ s.currentSpeed ≤ 0.45 ∧ s.currentSpeed ≤ g - 1.2 - s.position.x

/-- The state right after `init` on a two-point path in free space with a stride of 30:
the agent stands at (15, 5), two units from its target (15, 7), with heading 0. -/
def longStrideStart : State :=
  init refMath { path := [⟨15, 5⟩, ⟨15, 7⟩], stride := 30 } ⟨0, 0, 0⟩ ⟨0, 0, 0⟩ 1

/-- A frame of 100 ms with the camera one unit due east of the pet at (15, 5), no mixer. -/
def eastCamFrame : Env :=
  { dt := 100, cam := some { camWorld := ⟨16, 0, 5⟩, petWorld := ⟨15, 0, 5⟩ }, mixer := none }

/-- A frame of 16 ms in root-motion mode: the mixer has a root-motion node, a clip of one
second and an active action; no camera. -/
def rootFrame : Env :=
  { dt := 16, cam := none,
    mixer := some { rootMotionNode := true, clipDuration := 1, activeAction := true } }

/-- The state right after `init` on a two-point path whose start (2.19, 7) lies one
centimetre inside the third obstacle rectangle, all schema values default. -/
def edgeStart : State :=
  init refMath { path := [⟨2.19, 7⟩, ⟨5, 7⟩] } ⟨0, 0, 0⟩ ⟨0, 0, 0⟩ 1

/-- A frame of 100 ms with the camera one unit due north of the pet at (2.19, 7), no mixer. -/
def edgeCamFrame : Env :=
  { dt := 100, cam := some { camWorld := ⟨2.19, 0, 8⟩, petWorld := ⟨2.19, 0, 7⟩ },
    mixer := none }

/-- A frame of 16 ms whose mixer reports a clip duration of -1 and no root motion. -/
def negativeClipFrame : Env :=
  { dt := 16, cam := none,
    mixer := some { rootMotionNode := false, clipDuration := -1, activeAction := true } }

/-- A frame of 16 ms whose mixer has no root motion and reports a clip duration of 0 (the
value the mixer holds before a model is loaded). -/
def zeroClipFrame : Env :=
  { dt := 16, cam := none,
    mixer := some { rootMotionNode := false, clipDuration := 0, activeAction := false } }

/-- A frame of 16 ms whose mixer has no root motion and reports a clip of two seconds. -/
def twoSecondClipFrame : Env :=
  { dt := 16, cam := none,
    mixer := some { rootMotionNode := false, clipDuration := 2, activeAction := true } }

/-- The blend target of the speed update, `wantMove ? targetSpeed : 0` (the second local
named `target` in the source). -/
def speedTarget (obs : List Rect) (M : MathLib) (s : State) (e : Env) : ℚ :=
  if wantMove obs M s e then targetSpeed M s e else 0

/-- The expression of `targetSpeed` as a function of `targetSpeedRaw` and `dist`. -/
def brakingRamp (raw d : ℚ) : ℚ :=
  if d ≤ stopDist then 0
  else if d < stopDist + 0.8 then raw * (d - stopDist) / 0.8
  else raw

/-- The state right after `init` on a path that leaves the bounds: the agent stands at
(17.4, 10), one decimetre inside the eastern bound, and faces its target (27.4, 10). -/
def rimStart : State :=
  init refMath { path := [⟨17.4, 10⟩, ⟨27.4, 10⟩] } ⟨0, 0, 0⟩ ⟨0, 0, 0⟩ 1

/-- The state right after `init` on a three-point path inside the first obstacle
rectangle: the agent stands at (0, 0), half a unit from its target (0.5, 0). -/
def villaStart : State :=
  init refMath { path := [⟨0, 0⟩, ⟨0.5, 0⟩, ⟨1, 0⟩] } ⟨0, 0, 0⟩ ⟨0, 0, 0⟩ 1

/-! ## Checked divisions -/

/-- The two divisions of `tick` whose divisor is a variable: `stride / clipDuration`, and
`dx / dist`, `dz / dist` (in the probe and in the landing point). -/
inductive DivSite where
  | byClip
  | byDist
deriving DecidableEq, Repr

/-- A division that fails unless the divisor is accepted at its site. -/
def checkedDiv (ok : DivSite → ℚ → Bool) (site : DivSite) (a b : ℚ) : Option ℚ :=
  if ok site b then some (a / b) else none

/-- Every divisor but zero is accepted. -/
def nonzeroDivisor : DivSite → ℚ → Bool := fun _ d => decide (d ≠ 0)

/-- A clip duration is accepted when positive, a distance when above the stop distance. -/
def guardedDivisor : DivSite → ℚ → Bool
  | DivSite.byClip, d => decide (0 < d)
  | DivSite.byDist, d => decide (stopDist < d)

/-- `targetSpeedRaw` with the division checked; the division is reached only in the
first branch of the conditional. -/
def targetSpeedRawChecked (ok : DivSite → ℚ → Bool) (s : State) (e : Env) : Option ℚ :=
  if clipDuration e > 0 then checkedDiv ok DivSite.byClip s.data.stride (clipDuration e)
  else some s.data.speed

/-- `wantMove` with the divisions checked; `&&` evaluates its right operand only when the
left one is true, so the probe is reached only when `angleOk` and `dist > stopDist`. -/
def wantMoveChecked (ok : DivSite → ℚ → Bool) (obs : List Rect) (M : MathLib) (s : State)
    (e : Env) : Option Bool :=
  if angleOk M s e = true then
    if dist M s > stopDist then
      (checkedDiv ok DivSite.byDist (dx s) (dist M s)).bind fun ux =>
      (checkedDiv ok DivSite.byDist (dz s) (dist M s)).bind fun uz =>
      some (!pointInObstacleIn obs (s.position.x + ux * s.data.stride * 0.5)
        (s.position.z + uz * s.data.stride * 0.5))
    else some false
  else some false

/-- The speed update with the divisions checked. -/
def newSpeedChecked (ok : DivSite → ℚ → Bool) (obs : List Rect) (M : MathLib) (s : State)
    (e : Env) : Option ℚ :=
  (targetSpeedRawChecked ok s e).bind fun raw =>
  let tspeed :=
    if dist M s ≤ stopDist then 0
    else if dist M s < stopDist + 0.8 then raw * (dist M s - stopDist) / 0.8
    else raw
  (wantMoveChecked ok obs M s e).bind fun want =>
  let tgt := if want = true then tspeed else 0
  let blended := s.currentSpeed + (tgt - s.currentSpeed) * accel s e
  some (max 0 (min (raw * 1.05) blended))

/-- The procedural branch of `tick` with the divisions checked, statement by statement. -/
def proceduralChecked (ok : DivSite → ℚ → Bool) (obs : List Rect) (M : MathLib) (s : State)
    (e : Env) : Option State :=
  (newSpeedChecked ok obs M s e).bind fun v =>
  let s1 := { turned M s e with currentSpeed := v }
  if dist M s ≤ v * dtSec e * 2 ∨ dist M s ≤ stopDist then some (skipWaypoint e s1)
  else
    let moveDist := v * dtSec e
    (checkedDiv ok DivSite.byDist (dx s) (dist M s)).bind fun ux =>
    (checkedDiv ok DivSite.byDist (dz s) (dist M s)).bind fun uz =>
    let nextPos := clampToBounds
      { x := s.position.x + ux * moveDist, y := s.position.y, z := s.position.z + uz * moveDist }
    if pointInObstacleIn obs nextPos.x nextPos.z = true then some (skipWaypoint e s1)
    else
      let mv := decide (v > 0.01)
      some (setAnimationTimeScale e
        { s1 with position := { nextPos with y := GROUND_Y + groundOffsetOf s }, moving := mv }
        (if mv = true then 1 else s.data.idleTimeScale))

/-- The method `tick` with the divisions by `clipDuration` and `dist` checked (the
root-motion branch has none). -/
def tickChecked (ok : DivSite → ℚ → Bool) (obs : List Rect) (M : MathLib) (s : State)
    (e : Env) : Option State :=
  if s.path.length < 2 then some s
  else if hasRootMotion e = true then some (rootMotionBranch obs M s e)
  else proceduralChecked ok obs M s e

/-- The state right after `init` on a path whose two waypoints coincide: the agent stands
exactly on its target. -/
def onTargetStart : State :=
  init refMath { path := [⟨15, 5⟩, ⟨15, 5⟩] } ⟨0, 0, 0⟩ ⟨0, 0, 0⟩ 1

/-- A state on the path [(15,5), (15,10)] whose ground offset was captured as 0.3 and
whose position has since been lifted to height 5. -/
def liftedState : State :=
  { init refMath { path := [⟨15, 5⟩, ⟨15, 10⟩] } ⟨0, 0.3, 0⟩ ⟨0, 0, 0⟩ 1 with
    groundOffset := some 0.3
    position := ⟨15, 5, 5⟩ }

/-- The schema data with every value at its default (empty `path`, so `init` takes the
built-in loop). -/
def defaultData : Data := {}

/-- Invariant of the default configuration: the agent is on the built-in loop with the
default stride, idle, at its start waypoint (2, 7) and height `y`. -/
def DefaultParked (y : ℚ) (s : State) : Prop :=
  s.path = defaultPath ∧ s.data.stride = 0.45 ∧ s.position = ⟨2, y, 7⟩ ∧ s.moving = false

/-! ## Lemmas on the heading normalisation -/

theorem wrapDown_of_le {d : ℚ} (h : d ≤ 180) : wrapDown d = d := by
  rw [wrapDown, if_neg (not_lt.mpr h)]

theorem wrapDown_of_gt {d : ℚ} (h : 180 < d) : wrapDown d = wrapDown (d - 360) := by
  rw [wrapDown, if_pos h]

theorem wrapUp_of_ge {d : ℚ} (h : -180 ≤ d) : wrapUp d = d := by
  rw [wrapUp, if_neg (not_lt.mpr h)]

theorem wrapUp_of_lt {d : ℚ} (h : d < -180) : wrapUp d = wrapUp (d + 360) := by
  rw [wrapUp, if_pos h]

/-- The first loop exits at or below 180, stays above -180 if it ran at all, returns its
input if it did not run, and subtracts a whole number of turns. -/
theorem wrapDown_spec (d : ℚ) :
    wrapDown d ≤ 180 ∧ (180 < d → -180 < wrapDown d) ∧ (d ≤ 180 → wrapDown d = d) ∧
      ∃ k : ℤ, wrapDown d = d + 360 * k := by
  induction d using wrapDown.induct with
  | case1 d h ih =>
    obtain ⟨h1, h2, h3, k, hk⟩ := ih
    rw [wrapDown_of_gt h]
    refine ⟨h1, fun _ => ?_, fun h4 => absurd h (not_lt.mpr h4), k - 1, ?_⟩
    · rcases le_or_lt (d - 360) 180 with h5 | h5
      · rw [h3 h5]; linarith
      · exact h2 h5
    · rw [hk]; push_cast; ring
  | case2 d h =>
    have h4 : d ≤ 180 := not_lt.mp h
    rw [wrapDown_of_le h4]
    exact ⟨h4, fun h5 => absurd h5 h, fun _ => rfl, 0, by simp⟩

/-- The second loop exits at or above -180, stays below 180 if it ran at all, returns its
input if it did not run, and adds a whole number of turns. -/
theorem wrapUp_spec (d : ℚ) :
    -180 ≤ wrapUp d ∧ (d < -180 → wrapUp d < 180) ∧ (-180 ≤ d → wrapUp d = d) ∧
      ∃ k : ℤ, wrapUp d = d + 360 * k := by
  induction d using wrapUp.induct with
  | case1 d h ih =>
    obtain ⟨h1, h2, h3, k, hk⟩ := ih
    rw [wrapUp_of_lt h]
    refine ⟨h1, fun _ => ?_, fun h4 => absurd h (not_lt.mpr h4), k + 1, ?_⟩
    · rcases le_or_lt (-180) (d + 360) with h5 | h5
      · rw [h3 h5]; linarith
      · exact h2 h5
    · rw [hk]; push_cast; ring
  | case2 d h =>
    have h4 : -180 ≤ d := not_lt.mp h
    rw [wrapUp_of_ge h4]
    exact ⟨h4, fun h5 => absurd h5 h, fun _ => rfl, 0, by simp⟩

theorem normalizeDiff_spec (d : ℚ) :
    -180 ≤ normalizeDiff d ∧ normalizeDiff d ≤ 180 ∧ ∃ k : ℤ, normalizeDiff d = d + 360 * k := by
  unfold normalizeDiff
  obtain ⟨a1, a2, a3, ka, hka⟩ := wrapDown_spec d
  obtain ⟨b1, b2, b3, kb, hkb⟩ := wrapUp_spec (wrapDown d)
  refine ⟨b1, ?_, ka + kb, ?_⟩
  · rcases le_or_lt (-180) (wrapDown d) with h | h
    · rw [b3 h]; exact a1
    · exact le_of_lt (b2 h)
  · rw [hkb, hka]; push_cast; ring

theorem normalizeDiff_of_mem {d : ℚ} (h1 : -180 ≤ d) (h2 : d ≤ 180) : normalizeDiff d = d := by
  unfold normalizeDiff
  rw [wrapDown_of_le h2, wrapUp_of_ge h1]

/-! ## Field-by-field effect of the small steps -/

theorem setAnimationTimeScale_eq (e : Env) (s : State) (c : ℚ) :
    setAnimationTimeScale e s c = s ∨ setAnimationTimeScale e s c = { s with timeScale := c } := by
  unfold setAnimationTimeScale
  split
  · split_ifs
    · exact Or.inr rfl
    · exact Or.inl rfl
  · exact Or.inl rfl

@[simp] theorem setAnimationTimeScale_position (e : Env) (s : State) (c : ℚ) :
    (setAnimationTimeScale e s c).position = s.position := by
  rcases setAnimationTimeScale_eq e s c with h | h <;> rw [h]

@[simp] theorem setAnimationTimeScale_waypointIndex (e : Env) (s : State) (c : ℚ) :
    (setAnimationTimeScale e s c).waypointIndex = s.waypointIndex := by
  rcases setAnimationTimeScale_eq e s c with h | h <;> rw [h]

@[simp] theorem setAnimationTimeScale_moving (e : Env) (s : State) (c : ℚ) :
    (setAnimationTimeScale e s c).moving = s.moving := by
  rcases setAnimationTimeScale_eq e s c with h | h <;> rw [h]

@[simp] theorem setAnimationTimeScale_currentSpeed (e : Env) (s : State) (c : ℚ) :
    (setAnimationTimeScale e s c).currentSpeed = s.currentSpeed := by
  rcases setAnimationTimeScale_eq e s c with h | h <;> rw [h]

@[simp] theorem setAnimationTimeScale_currentRotationY (e : Env) (s : State) (c : ℚ) :
    (setAnimationTimeScale e s c).currentRotationY = s.currentRotationY := by
  rcases setAnimationTimeScale_eq e s c with h | h <;> rw [h]

@[simp] theorem setAnimationTimeScale_path (e : Env) (s : State) (c : ℚ) :
    (setAnimationTimeScale e s c).path = s.path := by
  rcases setAnimationTimeScale_eq e s c with h | h <;> rw [h]

@[simp] theorem setAnimationTimeScale_data (e : Env) (s : State) (c : ℚ) :
    (setAnimationTimeScale e s c).data = s.data := by
  rcases setAnimationTimeScale_eq e s c with h | h <;> rw [h]

@[simp] theorem setAnimationTimeScale_groundOffset (e : Env) (s : State) (c : ℚ) :
    (setAnimationTimeScale e s c).groundOffset = s.groundOffset := by
  rcases setAnimationTimeScale_eq e s c with h | h <;> rw [h]

@[simp] theorem skipWaypoint_position (e : Env) (s : State) :
    (skipWaypoint e s).position = s.position := by
  simp [skipWaypoint, advance]

@[simp] theorem skipWaypoint_waypointIndex (e : Env) (s : State) :
    (skipWaypoint e s).waypointIndex = (s.waypointIndex + 1) % s.path.length := by
  simp [skipWaypoint, advance]

@[simp] theorem skipWaypoint_moving (e : Env) (s : State) :
    (skipWaypoint e s).moving = false := by
  simp [skipWaypoint, advance]

@[simp] theorem skipWaypoint_currentSpeed (e : Env) (s : State) :
    (skipWaypoint e s).currentSpeed = s.currentSpeed := by
  simp [skipWaypoint, advance]

@[simp] theorem skipWaypoint_currentRotationY (e : Env) (s : State) :
    (skipWaypoint e s).currentRotationY = s.currentRotationY := by
  simp [skipWaypoint, advance]

@[simp] theorem skipWaypoint_path (e : Env) (s : State) :
    (skipWaypoint e s).path = s.path := by
  simp [skipWaypoint, advance]

@[simp] theorem skipWaypoint_data (e : Env) (s : State) :
    (skipWaypoint e s).data = s.data := by
  simp [skipWaypoint, advance]

@[simp] theorem skipWaypoint_groundOffset (e : Env) (s : State) :
    (skipWaypoint e s).groundOffset = s.groundOffset := by
  simp [skipWaypoint, advance]

/-! ## What one tick does to each field -/

theorem tickIn_short (obs : List Rect) (M : MathLib) (s : State) (e : Env)
    (h : s.path.length < 2) : tickIn obs M s e = s := by
  unfold tickIn
  rw [if_pos h]

theorem tickIn_root (obs : List Rect) (M : MathLib) (s : State) (e : Env)
    (hlen : 2 ≤ s.path.length) (hr : hasRootMotion e = true) :
    tickIn obs M s e = rootMotionBranch obs M s e := by
  unfold tickIn
  rw [if_neg (by omega), if_pos hr]

theorem tickIn_procedural (obs : List Rect) (M : MathLib) (s : State) (e : Env)
    (hlen : 2 ≤ s.path.length) (hr : hasRootMotion e = false) :
    tickIn obs M s e = proceduralBranch obs M s e := by
  unfold tickIn
  rw [if_neg (by omega), if_neg (by simp [hr])]

theorem proceduralBranch_skip (obs : List Rect) (M : MathLib) (s : State) (e : Env)
    (h : arrives obs M s e ∨ blocked obs M s e) :
    proceduralBranch obs M s e =
      skipWaypoint e { turned M s e with currentSpeed := newSpeed obs M s e } := by
  unfold proceduralBranch
  by_cases ha : arrives obs M s e
  · simp only [if_pos ha]
  · simp only [if_neg ha, if_pos (h.resolve_left ha)]

theorem proceduralBranch_commit (obs : List Rect) (M : MathLib) (s : State) (e : Env)
    (ha : ¬ arrives obs M s e) (hb : ¬ blocked obs M s e) :
    proceduralBranch obs M s e =
      setAnimationTimeScale e
        { turned M s e with
          currentSpeed := newSpeed obs M s e
          position := { clampToBounds (landing obs M s e) with y := GROUND_Y + groundOffsetOf s }
          moving := decide (newSpeed obs M s e > 0.01) }
        (if newSpeed obs M s e > 0.01 then 1 else s.data.idleTimeScale) := by
  unfold proceduralBranch
  simp only [if_neg ha, if_neg hb]
  simp

/-! ## The executable numeric library -/

theorem refSqrt_mul_self (a : ℚ) : refSqrt (a * a) = |a| := by
  have h : (a.num * a.num).toNat = a.num.natAbs * a.num.natAbs := by
    rw [← Int.natAbs_mul_self, Int.toNat_natCast]
  have h2 : (a * a).num.toNat * (a * a).den = (a.num.natAbs * a.den) * (a.num.natAbs * a.den) := by
    rw [Rat.mul_self_num, Rat.mul_self_den, h]; ring
  unfold refSqrt
  simp only [h2, Nat.sqrt_eq, if_true]
  rw [Rat.mul_self_den, Rat.abs_def, Rat.divInt_eq_div]
  have hd : (a.den : ℚ) ≠ 0 := Nat.cast_ne_zero.mpr a.den_nz
  push_cast
  rw [Nat.cast_natAbs, Int.cast_abs]
  field_simp
  ring

theorem le_refSqrt_sq (q : ℚ) (hq : 0 ≤ q) : q ≤ refSqrt q * refSqrt q := by
  have hd : (0 : ℚ) < q.den := Nat.cast_pos.mpr q.den_pos
  have hnum : ((q.num.toNat : ℕ) : ℚ) = q * q.den := by
    have h1 : ((q.num.toNat : ℤ) : ℚ) = (q.num : ℚ) := by
      rw [Int.toNat_of_nonneg (Rat.num_nonneg.mpr hq)]
    have h2 : (q.num : ℚ) = q * q.den := by
      have := Rat.num_div_den q
      field_simp at this ⊢
    rw [← h2, ← h1]; norm_cast
  unfold refSqrt
  simp only []
  set n := Nat.sqrt (q.num.toNat * q.den) with hn
  have hlt : q.num.toNat * q.den < (n + 1) * (n + 1) := Nat.lt_succ_sqrt _
  split_ifs with h
  · have h' : ((n : ℚ)) * n = q * q.den * q.den := by
      rw [← hnum]; exact_mod_cast h
    rw [div_mul_div_comm, h', le_div_iff₀ (by positivity)]
    linarith
  · have h' : q * q.den * q.den < ((n : ℚ) + 1) * (n + 1) := by
      rw [← hnum]; exact_mod_cast hlt
    rw [div_mul_div_comm, le_div_iff₀ (by positivity)]
    linarith

theorem refSqrt_sq_of_nonneg {a : ℚ} (h : 0 ≤ a) : refSqrt (a * a) = a := by
  rw [refSqrt_mul_self, abs_of_nonneg h]

/-! ## World bounds -/

theorem clampToBounds_inBounds (p : Vec3) : inBounds (clampToBounds p) := by
  simp only [inBounds, clampToBounds, BOUNDS]
  refine ⟨le_max_left _ _, max_le (by norm_num) (min_le_left _ _), le_max_left _ _,
    max_le (by norm_num) (min_le_left _ _)⟩

theorem clampToBounds_of_inBounds {p : Vec3} (h : inBounds p) : clampToBounds p = p := by
  obtain ⟨h1, h2, h3, h4⟩ := h
  simp only [clampToBounds]
  rw [min_eq_right h2, max_eq_right h1, min_eq_right h4, max_eq_right h3]

theorem inBounds_setY {p : Vec3} (h : inBounds p) (y : ℚ) : inBounds { p with y := y } := h

theorem rootMotionBranch_position (obs : List Rect) (M : MathLib) (s : State) (e : Env) :
    (rootMotionBranch obs M s e).position =
      { clampToBounds s.position with y := GROUND_Y + groundOffsetOf s } := by
  simp [rootMotionBranch]

theorem proceduralBranch_position_skip (obs : List Rect) (M : MathLib) (s : State) (e : Env)
    (h : arrives obs M s e ∨ blocked obs M s e) :
    (proceduralBranch obs M s e).position = s.position := by
  rw [proceduralBranch_skip obs M s e h]
  simp [turned]

theorem proceduralBranch_position_commit (obs : List Rect) (M : MathLib) (s : State) (e : Env)
    (ha : ¬ arrives obs M s e) (hb : ¬ blocked obs M s e) :
    (proceduralBranch obs M s e).position =
      { clampToBounds (landing obs M s e) with y := GROUND_Y + groundOffsetOf s } := by
  rw [proceduralBranch_commit obs M s e ha hb]
  simp

/-! ## C1: world bounds -/

/-- C1 (as amended): for a path of length at least 2, a root-motion tick always leaves
the position inside World Bounds; a procedural tick leaves the position untouched when it
returns early (waypoint reached or landing point blocked) and inside World Bounds when it
commits; so a position inside World Bounds before a tick is inside World Bounds after it. -/
theorem C1_position_bounds (M : MathLib) (s : State) (e : Env) (hlen : 2 ≤ s.path.length) :
    (hasRootMotion e = true → inBounds (tick M s e).position) ∧
    (hasRootMotion e = false →
      ((arrives OBSTACLES M s e ∨ blocked OBSTACLES M s e) →
        (tick M s e).position = s.position) ∧
      (¬ arrives OBSTACLES M s e → ¬ blocked OBSTACLES M s e →
        inBounds (tick M s e).position)) ∧
    (inBounds s.position → inBounds (tick M s e).position) := by
  have hroot : hasRootMotion e = true → inBounds (tick M s e).position := by
    intro hr
    rw [tick, tickIn_root _ _ _ _ hlen hr, rootMotionBranch_position]
    exact inBounds_setY (clampToBounds_inBounds _) _
  have hskip : hasRootMotion e = false → (arrives OBSTACLES M s e ∨ blocked OBSTACLES M s e) →
      (tick M s e).position = s.position := by
    intro hr h
    rw [tick, tickIn_procedural _ _ _ _ hlen hr, proceduralBranch_position_skip _ _ _ _ h]
  have hcommit : hasRootMotion e = false → ¬ arrives OBSTACLES M s e →
      ¬ blocked OBSTACLES M s e → inBounds (tick M s e).position := by
    intro hr ha hb
    rw [tick, tickIn_procedural _ _ _ _ hlen hr, proceduralBranch_position_commit _ _ _ _ ha hb]
    exact inBounds_setY (clampToBounds_inBounds _) _
  refine ⟨hroot, fun hr => ⟨hskip hr, hcommit hr⟩, fun hin => ?_⟩
  cases hr : hasRootMotion e
  · by_cases h : arrives OBSTACLES M s e ∨ blocked OBSTACLES M s e
    · rw [hskip hr h]; exact hin
    · push_neg at h
      exact hcommit hr h.1 h.2
  · exact hroot hr

theorem C1_position_bounds_witness :
    2 ≤ freeStart.path.length ∧ inBounds (tick refMath freeStart plainFrame).position :=
  ⟨by decide, (C1_position_bounds refMath freeStart plainFrame (by decide)).2.2
    (by simp [inBounds, freeStart, init, BOUNDS]; norm_num)⟩

theorem dist_farStart : dist refMath farStart = 1 := by
  have h : dx farStart * dx farStart + dz farStart * dz farStart = 1 * 1 := by
    simp [dx, dz, target, idx, farStart, init]
    norm_num
  rw [dist, h]
  exact refSqrt_sq_of_nonneg (by norm_num)

/-- C1 (as stated) fails: right after `init` on the path [(100,100), (100,101)] the agent
stands at (100, 100), one unit from its target; the tick returns early at
`dist <= stopDist` without committing a position, so the position after the tick is still
(100, 100), outside World Bounds. -/
theorem C1_counterexample :
    2 ≤ farStart.path.length ∧ hasRootMotion plainFrame = false ∧
      (tick refMath farStart plainFrame).position = ⟨100, 0, 100⟩ ∧
      ¬ inBounds (tick refMath farStart plainFrame).position := by
  have hpos : (tick refMath farStart plainFrame).position = ⟨100, 0, 100⟩ := by
    rw [tick, tickIn_procedural _ _ _ _ (by decide) (by decide),
      proceduralBranch_position_skip _ _ _ _
        (Or.inl (Or.inr (by rw [dist_farStart]; norm_num [stopDist])))]
    simp [farStart, init]
  refine ⟨by decide, by decide, hpos, ?_⟩
  rw [hpos]
  simp [inBounds, BOUNDS]
  norm_num

/-! ## C2: obstacles in procedural-stride mode -/

theorem proceduralBranch_waypointIndex_skip (obs : List Rect) (M : MathLib) (s : State)
    (e : Env) (h : arrives obs M s e ∨ blocked obs M s e) :
    (proceduralBranch obs M s e).waypointIndex = (s.waypointIndex + 1) % s.path.length := by
  rw [proceduralBranch_skip obs M s e h]
  simp [turned]

theorem proceduralBranch_waypointIndex_commit (obs : List Rect) (M : MathLib) (s : State)
    (e : Env) (ha : ¬ arrives obs M s e) (hb : ¬ blocked obs M s e) :
    (proceduralBranch obs M s e).waypointIndex = s.waypointIndex := by
  rw [proceduralBranch_commit obs M s e ha hb]
  simp [turned]

theorem proceduralBranch_moving_skip (obs : List Rect) (M : MathLib) (s : State) (e : Env)
    (h : arrives obs M s e ∨ blocked obs M s e) :
    (proceduralBranch obs M s e).moving = false := by
  rw [proceduralBranch_skip obs M s e h]
  simp

/-- C2: in procedural-stride mode with a path of length at least 2, a position committed
by the tick lies in no obstacle rectangle; a position outside every rectangle before the
tick is outside every rectangle after it; and when the clamped landing point lies in a
rectangle the position is unchanged, the waypoint index advances by one (modulo the path
length) and `moving` is false. -/
theorem C2_obstacles_procedural (M : MathLib) (s : State) (e : Env)
    (hlen : 2 ≤ s.path.length) (hr : hasRootMotion e = false) :
    (¬ arrives OBSTACLES M s e → ¬ blocked OBSTACLES M s e →
      pointInObstacle (tick M s e).position.x (tick M s e).position.z = false) ∧
    (pointInObstacle s.position.x s.position.z = false →
      pointInObstacle (tick M s e).position.x (tick M s e).position.z = false) ∧
    (blocked OBSTACLES M s e →
      (tick M s e).position = s.position ∧
      (tick M s e).waypointIndex = (s.waypointIndex + 1) % s.path.length ∧
      (tick M s e).moving = false) := by
  have hcommit : ¬ arrives OBSTACLES M s e → ¬ blocked OBSTACLES M s e →
      pointInObstacle (tick M s e).position.x (tick M s e).position.z = false := by
    intro ha hb
    rw [tick, tickIn_procedural _ _ _ _ hlen hr, proceduralBranch_position_commit _ _ _ _ ha hb]
    simpa [blocked, pointInObstacle] using hb
  refine ⟨hcommit, fun hfree => ?_, fun hb => ?_⟩
  · by_cases h : arrives OBSTACLES M s e ∨ blocked OBSTACLES M s e
    · rw [tick, tickIn_procedural _ _ _ _ hlen hr, proceduralBranch_position_skip _ _ _ _ h]
      exact hfree
    · push_neg at h
      exact hcommit h.1 h.2
  · rw [tick, tickIn_procedural _ _ _ _ hlen hr]
    exact ⟨proceduralBranch_position_skip _ _ _ _ (Or.inr hb),
      proceduralBranch_waypointIndex_skip _ _ _ _ (Or.inr hb),
      proceduralBranch_moving_skip _ _ _ _ (Or.inr hb)⟩

theorem C2_obstacles_procedural_witness :
    2 ≤ freeStart.path.length ∧ hasRootMotion plainFrame = false ∧
      pointInObstacle (tick refMath freeStart plainFrame).position.x
        (tick refMath freeStart plainFrame).position.z = false :=
  ⟨by decide, by decide,
    (C2_obstacles_procedural refMath freeStart plainFrame (by decide) (by decide)).2.1
      (by simp [pointInObstacle, pointInObstacleIn, OBSTACLES, freeStart, init]; norm_num)⟩

/-! ## C3: the speed range -/

theorem newSpeed_nonneg (obs : List Rect) (M : MathLib) (s : State) (e : Env) :
    0 ≤ newSpeed obs M s e := by
  unfold newSpeed
  exact le_max_left _ _

theorem newSpeed_le (obs : List Rect) (M : MathLib) (s : State) (e : Env)
    (h : 0 ≤ targetSpeedRaw s e) : newSpeed obs M s e ≤ targetSpeedRaw s e * 1.05 := by
  unfold newSpeed
  exact max_le (by linarith) (min_le_left _ _)

theorem proceduralBranch_currentSpeed (obs : List Rect) (M : MathLib) (s : State) (e : Env) :
    (proceduralBranch obs M s e).currentSpeed = newSpeed obs M s e := by
  by_cases h : arrives obs M s e ∨ blocked obs M s e
  · rw [proceduralBranch_skip obs M s e h]
    simp
  · push_neg at h
    rw [proceduralBranch_commit obs M s e h.1 h.2]
    simp

theorem rootMotionBranch_currentSpeed (obs : List Rect) (M : MathLib) (s : State) (e : Env) :
    (rootMotionBranch obs M s e).currentSpeed = s.currentSpeed := by
  unfold rootMotionBranch
  simp only []
  split_ifs <;> simp [turned, advance]

theorem init_currentSpeed (M : MathLib) (data : Data) (p r : Vec3) (t : ℚ) :
    (init M data p r t).currentSpeed = 0 := rfl

/-- C3 (as amended): for a path of length at least 2, a procedural-mode tick leaves
`currentSpeed` at the value computed by the speed update, which is never negative and,
when the stride is non-negative and the clip duration used by the tick is positive, is at
most `1.05 * stride / clipDuration`; a root-motion tick does not change `currentSpeed`;
and `init` sets it to 0. -/
theorem C3_speed_range (M : MathLib) (s : State) (e : Env) (hlen : 2 ≤ s.path.length) :
    (hasRootMotion e = false →
      (tick M s e).currentSpeed = newSpeed OBSTACLES M s e ∧ 0 ≤ (tick M s e).currentSpeed ∧
      (0 ≤ s.data.stride → 0 < clipDuration e →
        (tick M s e).currentSpeed ≤ 1.05 * s.data.stride / clipDuration e)) ∧
    (hasRootMotion e = true → (tick M s e).currentSpeed = s.currentSpeed) ∧
    (∀ (data : Data) (p r : Vec3) (t : ℚ), (init M data p r t).currentSpeed = 0) := by
  refine ⟨fun hr => ?_, fun hr => ?_, fun data p r t => rfl⟩
  · have h : (tick M s e).currentSpeed = newSpeed OBSTACLES M s e := by
      rw [tick, tickIn_procedural _ _ _ _ hlen hr, proceduralBranch_currentSpeed]
    refine ⟨h, ?_, fun hs hc => ?_⟩
    · rw [h]; exact newSpeed_nonneg _ _ _ _
    · have hraw : targetSpeedRaw s e = s.data.stride / clipDuration e := by
        rw [targetSpeedRaw, if_pos hc]
      have h0 : 0 ≤ targetSpeedRaw s e := by rw [hraw]; exact div_nonneg hs hc.le
      have h1 := newSpeed_le OBSTACLES M s e h0
      rw [h, mul_div_assoc, ← hraw]
      linarith
  · rw [tick, tickIn_root _ _ _ _ hlen hr, rootMotionBranch_currentSpeed]

theorem C3_speed_range_witness :
    2 ≤ freeStart.path.length ∧ hasRootMotion plainFrame = false ∧
      0 ≤ (tick refMath freeStart plainFrame).currentSpeed ∧
      (tick refMath freeStart plainFrame).currentSpeed ≤
        1.05 * freeStart.data.stride / clipDuration plainFrame :=
  ⟨by decide, by decide,
    ((C3_speed_range refMath freeStart plainFrame (by decide)).1 (by decide)).2.1,
    ((C3_speed_range refMath freeStart plainFrame (by decide)).1 (by decide)).2.2
      (by simp [freeStart, init, DEFAULT_STRIDE_M]; norm_num)
      (by simp [clipDuration, plainFrame])⟩

/-- C3 (as stated) fails for a negative stride: with `stride = -1` and no mixer (clip
duration 1) the clamp `Math.max(0, Math.min(-1.05, …))` leaves `currentSpeed = 0`, which
is above the claimed upper end `1.05 * stride / clipDuration = -1.05`. -/
theorem C3_counterexample :
    2 ≤ backStart.path.length ∧ hasRootMotion plainFrame = false ∧
      clipDuration plainFrame = 1 ∧ backStart.data.stride = -1 ∧
      (tick refMath backStart plainFrame).currentSpeed = 0 ∧
      ¬ ((tick refMath backStart plainFrame).currentSpeed ≤
          1.05 * backStart.data.stride / clipDuration plainFrame) := by
  have hc : clipDuration plainFrame = 1 := by simp [clipDuration, plainFrame]
  have hs : backStart.data.stride = -1 := by simp [backStart, init]
  have hraw : targetSpeedRaw backStart plainFrame = -1 := by
    rw [targetSpeedRaw, hc, hs]; norm_num
  have h : (tick refMath backStart plainFrame).currentSpeed = 0 := by
    rw [tick, tickIn_procedural _ _ _ _ (by decide) (by decide), proceduralBranch_currentSpeed]
    unfold newSpeed
    rw [hraw]
    apply max_eq_left
    exact le_trans (min_le_left _ _) (by norm_num)
  refine ⟨by decide, by decide, hc, hs, h, ?_⟩
  rw [h, hs, hc]
  norm_num

/-! ## C4: the normalised heading difference -/

theorem diff_spec (M : MathLib) (s : State) (e : Env) :
    -180 ≤ diff M s e ∧ diff M s e ≤ 180 ∧
      ∃ k : ℤ, diff M s e = headY M s e - s.currentRotationY + 360 * k :=
  normalizeDiff_spec _

/-- C4 (as amended): for every desired heading and every current heading the two
normalisation loops terminate (both are total functions) and leave `diff` in the closed
interval [-180, 180], differing from `headY - currentRotationY` by a whole multiple
of 360. -/
theorem C4_diff_range (M : MathLib) (s : State) (e : Env) :
    -180 ≤ diff M s e ∧ diff M s e ≤ 180 ∧
      ∃ k : ℤ, diff M s e = headY M s e - s.currentRotationY + 360 * k :=
  normalizeDiff_spec _

/-- C4 (as stated) fails at the lower end: right after `init` on the path
[(0,0), (0,-1)] the heading is 180; with the camera one unit due north the desired heading
is 0, `diff` starts at -180, neither loop runs, and `diff = -180` is outside (-180, 180]. -/
theorem C4_counterexample :
    southStart.currentRotationY = 180 ∧ headY refMath southStart northCamFrame = 0 ∧
      diff refMath southStart northCamFrame = -180 ∧
      ¬ (-180 < diff refMath southStart northCamFrame ∧
          diff refMath southStart northCamFrame ≤ 180) := by
  have hrot : southStart.currentRotationY = 180 := by
    simp [southStart, init, refMath, refAtan2Deg]
  have hhyp : refMath.hypot (0 - 0) (1 - 0) = 1 := by
    have h : refSqrt (1 * 1) = 1 := refSqrt_sq_of_nonneg (by norm_num)
    simpa [refMath] using h
  have hhead : headY refMath southStart northCamFrame = 0 := by
    simp only [headY, northCamFrame, hhyp]
    simp [southStart, init, refMath, refAtan2Deg]
  have hdiff : diff refMath southStart northCamFrame = -180 := by
    rw [diff, hhead, hrot, normalizeDiff_of_mem (by norm_num) (by norm_num)]
    norm_num
  refine ⟨hrot, hhead, hdiff, ?_⟩
  rw [hdiff]
  norm_num

/-! ## C5: the rate-limited turn -/

theorem turn_arith (d T : ℚ) (hT : 0 ≤ T) :
    (d - mathSign d * min |d| T = 0 ∨
      mathSign (d - mathSign d * min |d| T) = mathSign d) ∧
    |d - mathSign d * min |d| T| = max 0 (|d| - T) ∧
    (|d| ≤ T → mathSign d * min |d| T = d) := by
  rcases lt_trichotomy d 0 with hd | hd | hd
  · have hs : mathSign d = -1 := by simp [mathSign, hd, not_lt.mpr hd.le]
    rw [hs, abs_of_neg hd]
    rcases le_total (-d) T with h | h
    · rw [min_eq_left h, max_eq_left (by linarith)]
      refine ⟨Or.inl (by ring), by norm_num, fun _ => by ring⟩
    · rw [min_eq_right h, max_eq_right (by linarith)]
      rcases eq_or_lt_of_le h with h1 | h1
      · refine ⟨Or.inl (by linarith), ?_, fun _ => by linarith⟩
        rw [show d - -1 * T = 0 by linarith]; simp; linarith
      · have h2 : d - -1 * T < 0 := by linarith
        refine ⟨Or.inr ?_, ?_, fun h3 => by linarith⟩
        · rw [mathSign, if_neg (not_lt.mpr h2.le), if_pos h2]
        · rw [abs_of_neg h2]; ring
  · subst hd
    simp [mathSign, hT]
  · have hs : mathSign d = 1 := by simp [mathSign, hd]
    rw [hs, abs_of_pos hd]
    rcases le_total d T with h | h
    · rw [min_eq_left h, max_eq_left (by linarith)]
      refine ⟨Or.inl (by ring), by norm_num, fun _ => by ring⟩
    · rw [min_eq_right h, max_eq_right (by linarith)]
      rcases eq_or_lt_of_le h with h1 | h1
      · refine ⟨Or.inl (by linarith), ?_, fun _ => by linarith⟩
        rw [show d - 1 * T = 0 by linarith]; simp; linarith
      · have h2 : 0 < d - 1 * T := by linarith
        refine ⟨Or.inr ?_, ?_, fun h3 => by linarith⟩
        · rw [mathSign, if_pos h2]
        · rw [abs_of_pos h2]; ring

theorem proceduralBranch_currentRotationY (obs : List Rect) (M : MathLib) (s : State)
    (e : Env) :
    (proceduralBranch obs M s e).currentRotationY = s.currentRotationY + turnStep M s e := by
  by_cases h : arrives obs M s e ∨ blocked obs M s e
  · rw [proceduralBranch_skip obs M s e h]
    simp [turned]
  · push_neg at h
    rw [proceduralBranch_commit obs M s e h.1 h.2]
    simp [turned]

theorem rootMotionBranch_currentRotationY (obs : List Rect) (M : MathLib) (s : State)
    (e : Env) :
    (rootMotionBranch obs M s e).currentRotationY = s.currentRotationY + turnStep M s e := by
  unfold rootMotionBranch
  simp only []
  split_ifs <;> simp [turned, advance]

theorem tickIn_currentRotationY (obs : List Rect) (M : MathLib) (s : State) (e : Env)
    (hlen : 2 ≤ s.path.length) :
    (tickIn obs M s e).currentRotationY = s.currentRotationY + turnStep M s e := by
  cases hr : hasRootMotion e
  · rw [tickIn_procedural _ _ _ _ hlen hr, proceduralBranch_currentRotationY]
  · rw [tickIn_root _ _ _ _ hlen hr, rootMotionBranch_currentRotationY]

/-- C5: for every tick that passes the path-length guard with `turnSpeed * dtSec >= 0`,
the heading changes by exactly `sign(diff) * min(|diff|, turnSpeed * dtSec)`; the residual
`diff - step` is zero or has the sign of `diff`, its magnitude is
`max(0, |diff| - turnSpeed * dtSec)`, and when `|diff| <= turnSpeed * dtSec` the new heading
is the old heading plus `diff`, which is the desired heading up to a multiple of 360. -/
theorem C5_turn_no_overshoot (M : MathLib) (s : State) (e : Env) (hlen : 2 ≤ s.path.length)
    (hT : 0 ≤ s.data.turnSpeed * dtSec e) :
    (tick M s e).currentRotationY - s.currentRotationY =
      mathSign (diff M s e) * min |diff M s e| (s.data.turnSpeed * dtSec e) ∧
    (diff M s e - turnStep M s e = 0 ∨
      mathSign (diff M s e - turnStep M s e) = mathSign (diff M s e)) ∧
    |diff M s e - turnStep M s e| = max 0 (|diff M s e| - s.data.turnSpeed * dtSec e) ∧
    (|diff M s e| ≤ s.data.turnSpeed * dtSec e →
      (tick M s e).currentRotationY = s.currentRotationY + diff M s e) ∧
    ∃ k : ℤ, s.currentRotationY + diff M s e = headY M s e + 360 * k := by
  have hrot := tickIn_currentRotationY OBSTACLES M s e hlen
  obtain ⟨h1, h2, h3⟩ := turn_arith (diff M s e) (s.data.turnSpeed * dtSec e) hT
  obtain ⟨_, _, k, hk⟩ := diff_spec M s e
  refine ⟨?_, h1, h2, fun h => ?_, k, by rw [hk]; ring⟩
  · rw [tick, hrot, turnStep, turnSpeed]; ring
  · rw [tick, hrot, turnStep, turnSpeed, h3 h]

theorem C5_turn_no_overshoot_witness :
    2 ≤ southStart.path.length ∧ 0 ≤ southStart.data.turnSpeed * dtSec northCamFrame ∧
      (tick refMath southStart northCamFrame).currentRotationY - southStart.currentRotationY =
        mathSign (diff refMath southStart northCamFrame) *
          min |diff refMath southStart northCamFrame|
            (southStart.data.turnSpeed * dtSec northCamFrame) :=
  ⟨by decide, by simp [southStart, init, dtSec, northCamFrame, TURN_SPEED_DEG]; norm_num,
    (C5_turn_no_overshoot refMath southStart northCamFrame (by decide)
      (by simp [southStart, init, dtSec, northCamFrame, TURN_SPEED_DEG]; norm_num)).1⟩

/-! ## C6: the waypoint index -/

theorem rootMotionBranch_waypointIndex (obs : List Rect) (M : MathLib) (s : State) (e : Env) :
    (rootMotionBranch obs M s e).waypointIndex =
      (if pointInObstacleIn obs (clampToBounds s.position).x (clampToBounds s.position).z
        then fun w => (w + 1) % s.path.length else fun w => w)
        (if dist M s ≤ 0.6 then (s.waypointIndex + 1) % s.path.length else s.waypointIndex) := by
  unfold rootMotionBranch
  simp only []
  split_ifs <;> simp [turned, advance]

theorem rootMotionBranch_path (obs : List Rect) (M : MathLib) (s : State) (e : Env) :
    (rootMotionBranch obs M s e).path = s.path := by
  unfold rootMotionBranch
  simp only []
  split_ifs <;> simp [turned, advance]

theorem proceduralBranch_path (obs : List Rect) (M : MathLib) (s : State) (e : Env) :
    (proceduralBranch obs M s e).path = s.path := by
  by_cases h : arrives obs M s e ∨ blocked obs M s e
  · rw [proceduralBranch_skip obs M s e h]
    simp [turned]
  · push_neg at h
    rw [proceduralBranch_commit obs M s e h.1 h.2]
    simp [turned]

theorem tickIn_path (obs : List Rect) (M : MathLib) (s : State) (e : Env) :
    (tickIn obs M s e).path = s.path := by
  unfold tickIn
  split_ifs
  · rfl
  · exact rootMotionBranch_path obs M s e
  · exact proceduralBranch_path obs M s e

/-- One tick leaves the index alone, advances it once, or (root-motion mode only)
advances it twice. -/
theorem tickIn_waypointIndex_cases (obs : List Rect) (M : MathLib) (s : State) (e : Env) :
    (tickIn obs M s e).waypointIndex = s.waypointIndex ∨
      (tickIn obs M s e).waypointIndex = (advance s).waypointIndex ∨
      (tickIn obs M s e).waypointIndex = (advance (advance s)).waypointIndex := by
  unfold tickIn
  split_ifs with h1 h2
  · exact Or.inl rfl
  · rw [rootMotionBranch_waypointIndex]
    split_ifs
    · exact Or.inr (Or.inr rfl)
    · exact Or.inr (Or.inl rfl)
    · exact Or.inr (Or.inl rfl)
    · exact Or.inl rfl
  · by_cases h : arrives obs M s e ∨ blocked obs M s e
    · exact Or.inr (Or.inl (proceduralBranch_waypointIndex_skip obs M s e h))
    · push_neg at h
      exact Or.inl (proceduralBranch_waypointIndex_commit obs M s e h.1 h.2)

theorem advance_iterate (s : State) (N : ℕ) :
    (advance^[N] s).path = s.path ∧
      (advance^[N] s).waypointIndex % s.path.length = (s.waypointIndex + N) % s.path.length ∧
      (0 < N → (advance^[N] s).waypointIndex = (s.waypointIndex + N) % s.path.length) := by
  induction N with
  | zero => simp
  | succ n ih =>
    obtain ⟨h1, h2, _⟩ := ih
    rw [Function.iterate_succ_apply']
    have h3 : (advance (advance^[n] s)).waypointIndex =
        (s.waypointIndex + (n + 1)) % s.path.length := by
      show ((advance^[n] s).waypointIndex + 1) % (advance^[n] s).path.length = _
      rw [h1, Nat.add_mod, h2, ← Nat.add_mod, Nat.add_assoc]
    refine ⟨h1, ?_, fun _ => h3⟩
    rw [h3, Nat.mod_mod]

theorem target_getElem (s : State) (hlen : 0 < s.path.length) :
    s.path[(s.waypointIndex + 1) % s.path.length]? = some (target s) := by
  have hlt : (s.waypointIndex + 1) % s.path.length < s.path.length := Nat.mod_lt _ hlen
  rw [target, idx, Nat.mod_add_mod, List.getD_eq_getElem _ _ hlt, List.getElem?_eq_getElem hlt]

/-- C6: every waypoint advance sets `waypointIndex` to `(waypointIndex + 1) mod L`, and a
tick changes the index only by such advances; after `N` advances from index 0 the index is
`N mod L`; the index is valid after `init` and stays valid across every tick; and the
target of a tick is `path[(waypointIndex + 1) mod L]`. -/
theorem C6_waypoint_index (M : MathLib) (s : State) (e : Env) (hlen : 2 ≤ s.path.length) :
    (advance s).waypointIndex = (s.waypointIndex + 1) % s.path.length ∧
    ((tick M s e).waypointIndex = s.waypointIndex ∨
      (tick M s e).waypointIndex = (advance s).waypointIndex ∨
      (tick M s e).waypointIndex = (advance (advance s)).waypointIndex) ∧
    (∀ N : ℕ, s.waypointIndex = 0 → (advance^[N] s).waypointIndex = N % s.path.length) ∧
    (∀ (data : Data) (p r : Vec3) (t : ℚ),
      (init M data p r t).waypointIndex < (init M data p r t).path.length) ∧
    (s.waypointIndex < s.path.length →
      (tick M s e).waypointIndex < (tick M s e).path.length) ∧
    s.path[(s.waypointIndex + 1) % s.path.length]? = some (target s) := by
  have hpos : 0 < s.path.length := by omega
  refine ⟨rfl, tickIn_waypointIndex_cases OBSTACLES M s e, fun N h0 => ?_,
    fun data p r t => ?_, fun hw => ?_, target_getElem s hpos⟩
  · rcases Nat.eq_zero_or_pos N with hN | hN
    · subst hN
      simp [h0]
    · rw [(advance_iterate s N).2.2 hN, h0, Nat.zero_add]
  · show 0 < (if data.path.length > 0 then data.path else defaultPath).length
    split_ifs with h
    · exact h
    · decide
  · rw [tick, tickIn_path]
    rcases tickIn_waypointIndex_cases OBSTACLES M s e with h | h | h <;> rw [h]
    · exact hw
    · exact Nat.mod_lt _ hpos
    · exact Nat.mod_lt _ hpos

theorem C6_waypoint_index_witness :
    2 ≤ freeStart.path.length ∧
      freeStart.path[(freeStart.waypointIndex + 1) % freeStart.path.length]? =
        some (target freeStart) :=
  ⟨by decide, (C6_waypoint_index refMath freeStart plainFrame (by decide)).2.2.2.2.2⟩

/-! ## C7: degenerate paths -/

theorem runIn_short (obs : List Rect) (M : MathLib) (s : State) (es : List Env)
    (h : s.path.length < 2) : runIn obs M s es = s := by
  induction es with
  | nil => rfl
  | cons e es ih =>
    rw [runIn, List.foldl_cons, tickIn_short obs M s e h]
    exact ih

/-- C7: on a path of length 0 or 1 every sequence of ticks, with any frame times, cameras
and mixers, returns the state it was given: position, heading, waypoint index, speed and
the moving flag (and every other field) are unchanged. -/
theorem C7_short_path_noop (M : MathLib) (s : State) (es : List Env)
    (h : s.path.length < 2) :
    run M s es = s ∧
      (run M s es).position = s.position ∧
      (run M s es).currentRotationY = s.currentRotationY ∧
      (run M s es).waypointIndex = s.waypointIndex ∧
      (run M s es).currentSpeed = s.currentSpeed ∧
      (run M s es).moving = s.moving := by
  have h1 : run M s es = s := runIn_short OBSTACLES M s es h
  rw [h1]
  exact ⟨rfl, rfl, rfl, rfl, rfl, rfl⟩

theorem C7_short_path_noop_witness :
    lonelyStart.path.length < 2 ∧
      run refMath lonelyStart [plainFrame, northCamFrame, plainFrame] = lonelyStart :=
  ⟨by decide,
    (C7_short_path_noop refMath lonelyStart [plainFrame, northCamFrame, plainFrame]
      (by decide)).1⟩

/-! ## C8: the looping scenario -/

theorem rootMotionBranch_data (obs : List Rect) (M : MathLib) (s : State) (e : Env) :
    (rootMotionBranch obs M s e).data = s.data := by
  unfold rootMotionBranch
  simp only []
  split_ifs <;> simp [turned, advance]

theorem proceduralBranch_data (obs : List Rect) (M : MathLib) (s : State) (e : Env) :
    (proceduralBranch obs M s e).data = s.data := by
  by_cases h : arrives obs M s e ∨ blocked obs M s e
  · rw [proceduralBranch_skip obs M s e h]
    simp [turned]
  · push_neg at h
    rw [proceduralBranch_commit obs M s e h.1 h.2]
    simp [turned]

theorem tickIn_data (obs : List Rect) (M : MathLib) (s : State) (e : Env) :
    (tickIn obs M s e).data = s.data := by
  unfold tickIn
  split_ifs
  · rfl
  · exact rootMotionBranch_data obs M s e
  · exact proceduralBranch_data obs M s e

theorem newSpeed_eq_zero (obs : List Rect) (M : MathLib) (s : State) (e : Env)
    (hv : s.currentSpeed = 0) (hw : wantMove obs M s e = false) : newSpeed obs M s e = 0 := by
  unfold newSpeed
  simp only [hw, hv, Bool.false_eq_true, if_false, sub_zero, zero_mul, add_zero]
  exact max_eq_left (min_le_right _ _)

theorem landing_of_newSpeed_zero (obs : List Rect) (M : MathLib) (s : State) (e : Env)
    (h : newSpeed obs M s e = 0) : landing obs M s e = s.position := by
  unfold landing
  simp [h]

/-- A procedural tick of an agent that stands still inside an obstacle (and inside the
bounds) and is not allowed to move returns early: position and zero speed are kept. -/
theorem tick_stuck (M : MathLib) (s : State) (e : Env) (hlen : 2 ≤ s.path.length)
    (hr : hasRootMotion e = false) (hv : s.currentSpeed = 0)
    (hw : wantMove OBSTACLES M s e = false) (hb : inBounds s.position)
    (ho : pointInObstacle s.position.x s.position.z = true) :
    (tick M s e).position = s.position ∧ (tick M s e).currentSpeed = 0 := by
  have h0 := newSpeed_eq_zero OBSTACLES M s e hv hw
  have hblk : blocked OBSTACLES M s e := by
    unfold blocked
    rw [landing_of_newSpeed_zero _ _ _ _ h0, clampToBounds_of_inBounds hb]
    exact ho
  rw [tick, tickIn_procedural _ _ _ _ hlen hr]
  exact ⟨proceduralBranch_position_skip _ _ _ _ (Or.inr hblk),
    by rw [proceduralBranch_currentSpeed, h0]⟩

theorem refSqrt_axis {a : ℚ} (h : 0 ≤ a) : refSqrt (a * a + 0 * 0) = a := by
  rw [mul_zero, add_zero]
  exact refSqrt_sq_of_nonneg h

theorem parked_wantMove (s : State) (e : Env) (h : Parked s) :
    wantMove OBSTACLES refMath s e = false := by
  obtain ⟨hp, hs, hpos, _⟩ := h
  have hcases : (idx s + 1) % s.path.length = 0 ∨ (idx s + 1) % s.path.length = 1 := by
    have : s.path.length = 2 := by rw [hp]; rfl
    rw [this]; omega
  rcases hcases with h0 | h1
  · have htgt : target s = ⟨0, 0⟩ := by rw [target, h0, hp]; rfl
    have hdx : dx s = 0 := by rw [dx, htgt, hpos]; norm_num
    have hdz : dz s = 0 := by rw [dz, htgt, hpos]; norm_num
    have hd : dist refMath s = 0 := by
      rw [dist, hdx, hdz]
      exact refSqrt_axis le_rfl
    have hfar : decide (dist refMath s > stopDist) = false := by
      rw [hd, stopDist]; exact decide_eq_false (by norm_num)
    simp [wantMove, hfar]
  · have htgt : target s = ⟨10, 0⟩ := by rw [target, h1, hp]; rfl
    have hdx : dx s = 10 := by rw [dx, htgt, hpos]; norm_num
    have hdz : dz s = 0 := by rw [dz, htgt, hpos]; norm_num
    have hd : dist refMath s = 10 := by
      rw [dist, hdx, hdz]
      exact refSqrt_axis (by norm_num)
    have hpr : pointInObstacleIn OBSTACLES (probe refMath s).1 (probe refMath s).2 = true := by
      simp only [probe, hdx, hdz, hd, hs, hpos]
      simp [pointInObstacleIn, OBSTACLES]
      norm_num
    simp [wantMove, hpr]

theorem parked_tick (s : State) (e : Env) (hr : hasRootMotion e = false) (h : Parked s) :
    Parked (tick refMath s e) := by
  have hw := parked_wantMove s e h
  obtain ⟨hp, hs, hpos, hv⟩ := h
  have hlen : 2 ≤ s.path.length := by rw [hp]; decide
  have hb : inBounds s.position := by
    rw [hpos]; simp [inBounds, BOUNDS]; norm_num
  have ho : pointInObstacle s.position.x s.position.z = true := by
    rw [hpos]; simp [pointInObstacle, pointInObstacleIn, OBSTACLES]; norm_num
  obtain ⟨h1, h2⟩ := tick_stuck refMath s e hlen hr hv hw hb ho
  exact ⟨by rw [tick, tickIn_path, hp], by rw [tick, tickIn_data, hs], by rw [h1, hpos], h2⟩

theorem parked_run (s : State) (es : List Env) (hr : ∀ e ∈ es, hasRootMotion e = false)
    (h : Parked s) : Parked (run refMath s es) := by
  induction es generalizing s with
  | nil => exact h
  | cons e es ih =>
    rw [run, runIn, List.foldl_cons]
    exact ih (tickIn OBSTACLES refMath s e) (fun e' he' => hr e' (List.mem_cons_of_mem _ he'))
      (parked_tick s e (hr e (List.mem_cons_self _ _)) h)

theorem parked_loopStart : Parked loopStart := by
  refine ⟨rfl, ?_, ?_, rfl⟩
  · simp [loopStart, init, DEFAULT_STRIDE_M]
  · simp [loopStart, init, loopPath]

theorem refAtan2Deg_east {a : ℚ} (h : 0 < a) : refAtan2Deg a 0 = 90 := by
  unfold refAtan2Deg
  have h1 : ¬ (a = 0 ∧ (0 : ℚ) = 0) := fun hc => h.ne' hc.1
  have h2 : ¬ (|a| ≤ |(0 : ℚ)|) := by rw [abs_zero, abs_of_pos h]; exact not_le.mpr h
  rw [if_neg h1, if_neg h2]
  simp only [le_refl, if_true, h.le, abs_zero, zero_div, mul_zero, sub_zero]

theorem pointInObstacleIn_nil (x z : ℚ) : pointInObstacleIn [] x z = false := rfl

/-- The blended speed of one step of the approach: a convex combination of the old speed
and the ramp target keeps the speed below the cruising speed and below the distance that
is left after the step. -/
theorem approach_arith {v T r δ : ℚ} (hδ0 : 0 < δ) (hδ1 : δ ≤ 0.1) (hr : 0 < r)
    (hv0 : 0 ≤ v) (hv1 : v ≤ 0.45) (hv2 : v ≤ r) (hT0 : 0 ≤ T) (hT1 : T ≤ 0.45)
    (hT2 : T ≤ 0.5625 * r) :
    0 ≤ v + (T - v) * (3.5 * δ) ∧ v + (T - v) * (3.5 * δ) ≤ 0.45 ∧
      (v + (T - v) * (3.5 * δ)) * δ ≤ 0.045 ∧
      (v + (T - v) * (3.5 * δ)) * δ < r ∧
      v + (T - v) * (3.5 * δ) ≤ r - (v + (T - v) * (3.5 * δ)) * δ := by
  have hα0 : 0 ≤ 3.5 * δ := by linarith
  have hα1 : 0 ≤ 1 - 3.5 * δ := by linarith
  have e1 : v + (T - v) * (3.5 * δ) = (1 - 3.5 * δ) * v + 3.5 * δ * T := by ring
  have p1 : 0 ≤ (1 - 3.5 * δ) * v := mul_nonneg hα1 hv0
  have p2 : 0 ≤ 3.5 * δ * T := mul_nonneg hα0 hT0
  have p3 : (1 - 3.5 * δ) * v ≤ (1 - 3.5 * δ) * 0.45 := mul_le_mul_of_nonneg_left hv1 hα1
  have p4 : 3.5 * δ * T ≤ 3.5 * δ * 0.45 := mul_le_mul_of_nonneg_left hT1 hα0
  have p5 : (1 - 3.5 * δ) * v ≤ (1 - 3.5 * δ) * r := mul_le_mul_of_nonneg_left hv2 hα1
  have p6 : 3.5 * δ * T ≤ 3.5 * δ * (0.5625 * r) := mul_le_mul_of_nonneg_left hT2 hα0
  have hn0 : 0 ≤ v + (T - v) * (3.5 * δ) := by rw [e1]; linarith
  have hn1 : v + (T - v) * (3.5 * δ) ≤ 0.45 := by rw [e1]; linarith
  have hn2 : v + (T - v) * (3.5 * δ) ≤ r - 0.4375 * (3.5 * δ * r) := by rw [e1]; linarith
  have hδr : 0 < δ * r := mul_pos hδ0 hr
  have q1 : (v + (T - v) * (3.5 * δ)) * δ ≤ 0.45 * δ := mul_le_mul_of_nonneg_right hn1 hδ0.le
  have q2 : (v + (T - v) * (3.5 * δ)) * δ ≤ (r - 0.4375 * (3.5 * δ * r)) * δ :=
    mul_le_mul_of_nonneg_right hn2 hδ0.le
  have q3 : 0 ≤ δ * (δ * r) := mul_nonneg hδ0.le hδr.le
  have q4 : (r - 0.4375 * (3.5 * δ * r)) * δ = δ * r - 1.53125 * (δ * (δ * r)) := by ring
  have q5 : δ * r ≤ 0.1 * r := mul_le_mul_of_nonneg_right hδ1 hr.le
  refine ⟨hn0, hn1, by linarith, by linarith, ?_⟩
  have q6 : 0.4375 * (3.5 * δ * r) = 1.53125 * (δ * r) := by ring
  linarith

theorem dtSec_steadyFrame {dt : ℚ} (hdt : 0 < dt) :
    0 < dtSec (steadyFrame dt) ∧ dtSec (steadyFrame dt) ≤ 0.1 := by
  unfold dtSec steadyFrame
  exact ⟨lt_min (by positivity) (by norm_num), min_le_right _ _⟩

theorem approaching_tick (obs : List Rect) (a g c : ℚ) (s : State) (dt : ℚ) (hdt : 0 < dt)
    (hg : g ≤ 18.7) (hc1 : -7.5 ≤ c) (hc2 : c ≤ 13.5)
    (hfree : ∀ x : ℚ, pointInObstacleIn obs x c = false) (h : Approaching a g c s) :
    Approaching a g c (tickIn obs refMath s (steadyFrame dt)) := by
  obtain ⟨hp, hs, ha, hw, hrot, hz, hx0, hx1, hv0, hv1, hv2⟩ := h
  obtain ⟨hδ0, hδ1⟩ := dtSec_steadyFrame hdt
  have hlen : 2 ≤ s.path.length := by rw [hp]; exact le_refl 2
  have hr : hasRootMotion (steadyFrame dt) = false := rfl
  have htgt : target s = ⟨g, c⟩ := by rw [target, idx, hw, hp]; rfl
  have hdx : dx s = g - s.position.x := by rw [dx, htgt]
  have hdz : dz s = 0 := by rw [dz, htgt, hz, sub_self]
  have hd : dist refMath s = g - s.position.x := by
    rw [dist, hdx, hdz]
    exact refSqrt_axis (by linarith)
  have hhead : headY refMath s (steadyFrame dt) = 90 := by
    show refAtan2Deg (dx s) (dz s) = 90
    rw [hdx, hdz]
    exact refAtan2Deg_east (by linarith)
  have hdiff : diff refMath s (steadyFrame dt) = 0 := by
    rw [diff, hhead, hrot, sub_self, normalizeDiff_of_mem (by norm_num) (by norm_num)]
  have hturn : turnStep refMath s (steadyFrame dt) = 0 := by
    rw [turnStep, hdiff]; simp [mathSign]
  have hangle : angleOk refMath s (steadyFrame dt) = true := by
    rw [angleOk, hdiff, ANGLE_THRESHOLD_DEG]; exact decide_eq_true (by norm_num)
  have hfar : decide (dist refMath s > stopDist) = true := by
    rw [hd, stopDist]; exact decide_eq_true (by linarith)
  have hprobe : (probe refMath s).2 = c := by
    simp only [probe, hdz, hz, zero_div, zero_mul, add_zero]
  have hwant : wantMove obs refMath s (steadyFrame dt) = true := by
    rw [wantMove, hangle, hfar, hprobe, hfree]; rfl
  have hacc : accel s (steadyFrame dt) = 3.5 * dtSec (steadyFrame dt) := by
    rw [accel, ha]; exact min_eq_right (by linarith)
  have hraw : targetSpeedRaw s (steadyFrame dt) = 0.45 := by
    have hc : clipDuration (steadyFrame dt) = 1 := rfl
    rw [targetSpeedRaw, hc, if_pos (by norm_num), hs]; norm_num
  have hT : 0 ≤ targetSpeed refMath s (steadyFrame dt) ∧
      targetSpeed refMath s (steadyFrame dt) ≤ 0.45 ∧
      targetSpeed refMath s (steadyFrame dt) ≤ 0.5625 * (g - 1.2 - s.position.x) := by
    unfold targetSpeed
    rw [hd, hraw, stopDist]
    split_ifs with c1 c2
    · exact ⟨le_rfl, by norm_num, by linarith⟩
    · rw [show (0.45 : ℚ) * (g - s.position.x - 1.2) / 0.8 =
        0.5625 * (g - 1.2 - s.position.x) by ring]
      refine ⟨?_, ?_, ?_⟩ <;> linarith
    · refine ⟨?_, ?_, ?_⟩ <;> linarith
  obtain ⟨hT0, hT1, hT2⟩ := hT
  obtain ⟨n0, n1, n2, n3, n4⟩ :=
    approach_arith hδ0 hδ1 (by linarith : 0 < g - 1.2 - s.position.x) hv0 hv1 hv2 hT0 hT1 hT2
  have n5 := mul_nonneg n0 hδ0.le
  have hnew : newSpeed obs refMath s (steadyFrame dt) =
      s.currentSpeed + (targetSpeed refMath s (steadyFrame dt) - s.currentSpeed) *
        (3.5 * dtSec (steadyFrame dt)) := by
    unfold newSpeed
    simp only [hwant, if_true, hacc, hraw]
    rw [min_eq_right (by linarith), max_eq_right n0]
  have harr : ¬ arrives obs refMath s (steadyFrame dt) := by
    unfold arrives
    rw [hnew, hd, stopDist]
    push_neg
    constructor <;> linarith
  have hlandz : (clampToBounds (landing obs refMath s (steadyFrame dt))).z = c := by
    simp only [clampToBounds, landing, BOUNDS, hdz, hz, zero_div, zero_mul, add_zero]
    rw [min_eq_right hc2, max_eq_right hc1]
  have hblk : ¬ blocked obs refMath s (steadyFrame dt) := by
    unfold blocked
    rw [hlandz, hfree]
    exact Bool.false_ne_true
  have hposx : (proceduralBranch obs refMath s (steadyFrame dt)).position.x =
      s.position.x + newSpeed obs refMath s (steadyFrame dt) * dtSec (steadyFrame dt) := by
    rw [proceduralBranch_position_commit _ _ _ _ harr hblk]
    have hne : g - s.position.x ≠ 0 := by linarith
    simp only [clampToBounds, landing, BOUNDS, hdx, hd, div_self hne, one_mul]
    rw [hnew, min_eq_right (by linarith), max_eq_right (by linarith)]
  have hposz : (proceduralBranch obs refMath s (steadyFrame dt)).position.z = c := by
    rw [proceduralBranch_position_commit _ _ _ _ harr hblk]
    exact hlandz
  rw [tickIn_procedural _ _ _ _ hlen hr]
  refine ⟨by rw [proceduralBranch_path, hp], by rw [proceduralBranch_data, hs],
    by rw [proceduralBranch_data, ha],
    by rw [proceduralBranch_waypointIndex_commit _ _ _ _ harr hblk, hw],
    by rw [proceduralBranch_currentRotationY, hturn, hrot, add_zero], hposz, ?_, ?_, ?_, ?_, ?_⟩
  · rw [hposx, hnew]; linarith
  · rw [hposx, hnew]; linarith
  · rw [proceduralBranch_currentSpeed, hnew]; exact n0
  · rw [proceduralBranch_currentSpeed, hnew]; exact n1
  · rw [proceduralBranch_currentSpeed, hposx, hnew]; linarith

theorem approaching_run (obs : List Rect) (a g c : ℚ) (s : State) (dt : ℚ) (hdt : 0 < dt)
    (hg : g ≤ 18.7) (hc1 : -7.5 ≤ c) (hc2 : c ≤ 13.5)
    (hfree : ∀ x : ℚ, pointInObstacleIn obs x c = false) (N : ℕ) (h : Approaching a g c s) :
    Approaching a g c (runIn obs refMath s (List.replicate N (steadyFrame dt))) := by
  induction N generalizing s with
  | zero => exact h
  | succ n ih =>
    rw [List.replicate_succ, runIn, List.foldl_cons]
    exact ih _ (approaching_tick obs a g c s dt hdt hg hc1 hc2 hfree h)

theorem approaching_loopStart : Approaching 0 10 0 loopStart := by
  refine ⟨rfl, ?_, ?_, rfl, ?_, ?_, ?_, ?_, ?_, ?_, ?_⟩
  · simp [loopStart, init, DEFAULT_STRIDE_M]
  · simp [loopStart, init, ACCEL_RATE]
  · show refAtan2Deg (10 - 0) (0 - 0) = 90
    rw [sub_zero, sub_zero]
    exact refAtan2Deg_east (by norm_num)
  · simp [loopStart, init, loopPath]
  · simp [loopStart, init, loopPath]; norm_num
  · simp [loopStart, init, loopPath]; norm_num
  · simp [loopStart, init]
  · simp [loopStart, init]; norm_num
  · simp [loopStart, init, loopPath]; norm_num

theorem approaching_laneStart : Approaching (-5) 5 10 laneStart := by
  refine ⟨rfl, ?_, ?_, rfl, ?_, ?_, ?_, ?_, ?_, ?_, ?_⟩
  · simp [laneStart, init, DEFAULT_STRIDE_M]
  · simp [laneStart, init, ACCEL_RATE]
  · show refAtan2Deg (5 - -5) (10 - 10) = 90
    rw [sub_self]
    exact refAtan2Deg_east (by norm_num)
  · simp [laneStart, init, lanePath]
  · simp [laneStart, init, lanePath]; norm_num
  · simp [laneStart, init, lanePath]; norm_num
  · simp [laneStart, init]
  · simp [laneStart, init]; norm_num
  · simp [laneStart, init, lanePath]; norm_num

theorem lane_free (x : ℚ) : pointInObstacleIn OBSTACLES x 10 = false := by
  simp [pointInObstacleIn, OBSTACLES]
  norm_num

/-- C8 (fails on the code): with any fixed frame time `dt > 0`, no camera and no mixer
(procedural mode, default stride 0.45, clip duration 1), after every number `N` of ticks
(1) on the path [(0,0), (10,0)] in the scene of the source the agent still stands at
(0, 0), ten units from (10, 0): the start lies inside the first obstacle rectangle, so no
tick ever commits a position;
(2) on the same path with an empty obstacle list the waypoint index is still 0 and the
agent is still farther than the stop distance 1.2 from (10, 0);
(3) on the obstacle-free lane [(-5,10), (5,10)] of the scene of the source the waypoint
index is still 0 and the agent is still farther than 1.2 from (5, 10).
In (2) and (3) the braking ramp lets the speed go to zero as the distance goes to 1.2, so
the distance decreases towards 1.2 without ever reaching it. -/
theorem C8_never_arrives (dt : ℚ) (hdt : 0 < dt) (N : ℕ) :
    (run refMath loopStart (List.replicate N (steadyFrame dt))).position = ⟨0, 0, 0⟩ ∧
    ((runIn [] refMath loopStart (List.replicate N (steadyFrame dt))).waypointIndex = 0 ∧
      (1.2 : ℚ) ^ 2 <
        (10 - (runIn [] refMath loopStart (List.replicate N (steadyFrame dt))).position.x) ^ 2 +
        (0 - (runIn [] refMath loopStart (List.replicate N (steadyFrame dt))).position.z) ^ 2) ∧
    ((run refMath laneStart (List.replicate N (steadyFrame dt))).waypointIndex = 0 ∧
      (1.2 : ℚ) ^ 2 <
        (5 - (run refMath laneStart (List.replicate N (steadyFrame dt))).position.x) ^ 2 +
        (10 - (run refMath laneStart (List.replicate N (steadyFrame dt))).position.z) ^ 2) := by
  have h1 := parked_run loopStart (List.replicate N (steadyFrame dt))
    (fun e he => by rw [List.eq_of_mem_replicate he]; rfl) parked_loopStart
  obtain ⟨_, _, _, hw, _, hz, _, hx1, _, _, _⟩ :=
    approaching_run [] 0 10 0 loopStart dt hdt (by norm_num) (by norm_num) (by norm_num)
      (fun x => pointInObstacleIn_nil x 0) N approaching_loopStart
  obtain ⟨_, _, _, hw', _, hz', _, hx1', _, _, _⟩ :=
    approaching_run OBSTACLES (-5) 5 10 laneStart dt hdt (by norm_num) (by norm_num)
      (by norm_num) (fun x => lane_free x) N approaching_laneStart
  refine ⟨h1.2.2.1, ⟨hw, ?_⟩, ⟨hw', ?_⟩⟩
  · rw [hz]
    nlinarith
  · rw [run, hz']
    nlinarith

theorem C8_never_arrives_witness :
    (0 : ℚ) < 100 ∧
      (run refMath loopStart (List.replicate 50 (steadyFrame 100))).position = ⟨0, 0, 0⟩ ∧
      (run refMath laneStart (List.replicate 50 (steadyFrame 100))).waypointIndex = 0 :=
  ⟨by norm_num, (C8_never_arrives 100 (by norm_num) 50).1,
    (C8_never_arrives 100 (by norm_num) 50).2.2.1⟩

/-! ## C9: the observer -/

theorem proceduralBranch_waypointIndex (obs : List Rect) (M : MathLib) (s : State) (e : Env) :
    (proceduralBranch obs M s e).waypointIndex =
      if arrives obs M s e ∨ blocked obs M s e then (s.waypointIndex + 1) % s.path.length
      else s.waypointIndex := by
  split_ifs with h
  · exact proceduralBranch_waypointIndex_skip obs M s e h
  · push_neg at h
    exact proceduralBranch_waypointIndex_commit obs M s e h.1 h.2

/-- The speed update reads the environment only through the frame time, the mixer and
the alignment test. -/
theorem newSpeed_congr (obs : List Rect) (M : MathLib) (s : State) (e1 e2 : Env)
    (hdt : e1.dt = e2.dt) (hmix : e1.mixer = e2.mixer)
    (hang : angleOk M s e1 = angleOk M s e2) : newSpeed obs M s e1 = newSpeed obs M s e2 := by
  have h1 : dtSec e1 = dtSec e2 := by unfold dtSec; rw [hdt]
  have h2 : clipDuration e1 = clipDuration e2 := by unfold clipDuration; rw [hmix]
  have h3 : targetSpeedRaw s e1 = targetSpeedRaw s e2 := by unfold targetSpeedRaw; rw [h2]
  have h4 : targetSpeed M s e1 = targetSpeed M s e2 := by unfold targetSpeed; rw [h3]
  have h5 : wantMove obs M s e1 = wantMove obs M s e2 := by unfold wantMove; rw [hang]
  have h6 : accel s e1 = accel s e2 := by unfold accel; rw [h1]
  unfold newSpeed
  rw [h3, h4, h5, h6]

theorem proceduralBranch_waypointIndex_congr (obs : List Rect) (M : MathLib) (s : State)
    (e1 e2 : Env) (hdt : e1.dt = e2.dt) (hmix : e1.mixer = e2.mixer)
    (hang : angleOk M s e1 = angleOk M s e2) :
    (proceduralBranch obs M s e1).waypointIndex = (proceduralBranch obs M s e2).waypointIndex := by
  have h1 : dtSec e1 = dtSec e2 := by unfold dtSec; rw [hdt]
  have h2 := newSpeed_congr obs M s e1 e2 hdt hmix hang
  have h3 : landing obs M s e1 = landing obs M s e2 := by unfold landing; rw [h1, h2]
  have h4 : arrives obs M s e1 = arrives obs M s e2 := by unfold arrives; rw [h1, h2]
  have h5 : blocked obs M s e1 = blocked obs M s e2 := by unfold blocked; rw [h3]
  rw [proceduralBranch_waypointIndex, proceduralBranch_waypointIndex]
  simp only [h4, h5]

/-- C9 (as amended): when a camera exists, `proximity > 0` and the camera is closer than
`proximity`, the desired heading of the tick is the bearing of the camera, not of the
waypoint.  For two ticks from the same state that differ only in the camera, the
waypoint index after the tick is the same in root-motion mode, and in procedural mode
whenever the alignment test `|diff| < 38` has the same outcome in both. -/
theorem C9_observer (M : MathLib) (s : State) (e1 e2 : Env) (hlen : 2 ≤ s.path.length)
    (hdt : e1.dt = e2.dt) (hmix : e1.mixer = e2.mixer) :
    (∀ c : Observer, e1.cam = some c → s.data.proximity > 0 →
      M.hypot (c.camWorld.x - c.petWorld.x) (c.camWorld.z - c.petWorld.z) < s.data.proximity →
      headY M s e1 = M.atan2Deg (c.camWorld.x - c.petWorld.x) (c.camWorld.z - c.petWorld.z)) ∧
    (hasRootMotion e1 = true → (tick M s e1).waypointIndex = (tick M s e2).waypointIndex) ∧
    (angleOk M s e1 = angleOk M s e2 →
      (tick M s e1).waypointIndex = (tick M s e2).waypointIndex) := by
  have hroot : hasRootMotion e1 = hasRootMotion e2 := by unfold hasRootMotion; rw [hmix]
  have hR : hasRootMotion e1 = true →
      (tick M s e1).waypointIndex = (tick M s e2).waypointIndex := by
    intro hr
    rw [tick, tick, tickIn_root _ _ _ _ hlen hr, tickIn_root _ _ _ _ hlen (hroot ▸ hr),
      rootMotionBranch_waypointIndex, rootMotionBranch_waypointIndex]
  refine ⟨fun c hc hp hd => ?_, hR, fun hang => ?_⟩
  · unfold headY
    rw [hc]
    exact if_pos ⟨hp, hd⟩
  · cases hr : hasRootMotion e1
    · rw [tick, tick, tickIn_procedural _ _ _ _ hlen hr,
        tickIn_procedural _ _ _ _ hlen (hroot ▸ hr)]
      exact proceduralBranch_waypointIndex_congr _ M s e1 e2 hdt hmix hang
    · exact hR hr

theorem C9_observer_witness :
    2 ≤ southStart.path.length ∧ northCamFrame.dt = plainFrame.dt ∧
      northCamFrame.mixer = plainFrame.mixer ∧
      headY refMath southStart northCamFrame = refMath.atan2Deg (0 - 0) (1 - 0) :=
  ⟨by decide, rfl, rfl,
    (C9_observer refMath southStart northCamFrame plainFrame (by decide) rfl rfl).1
      ⟨⟨0, 0, 1⟩, ⟨0, 0, 0⟩⟩ rfl (by simp [southStart, init])
      (by
        have h : refSqrt (1 * 1) = 1 := refSqrt_sq_of_nonneg (by norm_num)
        have h5 : southStart.data.proximity = 5 := by simp [southStart, init]
        rw [h5]
        simp only [refMath, sub_zero, mul_zero, zero_mul, zero_add]
        rw [h]
        norm_num)⟩

theorem refSqrt_axis_z {a : ℚ} (h : 0 ≤ a) : refSqrt (0 * 0 + a * a) = a := by
  rw [mul_zero, zero_add]
  exact refSqrt_sq_of_nonneg h

theorem refAtan2Deg_north {b : ℚ} (h : 0 < b) : refAtan2Deg 0 b = 0 := by
  unfold refAtan2Deg
  have h1 : ¬ ((0 : ℚ) = 0 ∧ b = 0) := fun hc => h.ne' hc.2
  have h2 : |(0 : ℚ)| ≤ |b| := by rw [abs_zero]; exact abs_nonneg b
  rw [if_neg h1, if_pos h2]
  simp only [le_refl, if_true, h.le, abs_zero, zero_div, mul_zero]

theorem longStrideStart_facts :
    target longStrideStart = ⟨15, 7⟩ ∧ longStrideStart.position = ⟨15, 0, 5⟩ ∧
      longStrideStart.currentRotationY = 0 ∧ longStrideStart.currentSpeed = 0 ∧
      longStrideStart.data.stride = 30 ∧ longStrideStart.data.accelRate = 3.5 ∧
      longStrideStart.data.proximity = 5 ∧ dx longStrideStart = 0 ∧ dz longStrideStart = 2 ∧
      dist refMath longStrideStart = 2 := by
  have htgt : target longStrideStart = ⟨15, 7⟩ := rfl
  have hpos : longStrideStart.position = ⟨15, 0, 5⟩ := rfl
  have hdx : dx longStrideStart = 0 := by rw [dx, htgt, hpos]; norm_num
  have hdz : dz longStrideStart = 2 := by rw [dz, htgt, hpos]; norm_num
  refine ⟨htgt, hpos, ?_, rfl, rfl, ?_, rfl, hdx, hdz, ?_⟩
  · show refAtan2Deg (15 - 15) (7 - 5) = 0
    rw [sub_self]
    exact refAtan2Deg_north (by norm_num)
  · simp [longStrideStart, init, ACCEL_RATE]
  · rw [dist, hdx, hdz]
    exact refSqrt_axis_z (by norm_num)

/-- C9 (as stated) fails: right after `init` on the path [(15,5), (15,7)] with a stride of
30 and frames of 100 ms, the tick without a camera accelerates to 10.5 and advances the
waypoint index to 1 (`2 <= 10.5 * 0.1 * 2`); the tick from the same state with the camera
one unit due east turns towards the camera, fails the alignment test, keeps speed 0 and
leaves the waypoint index at 0. -/
theorem C9_counterexample :
    (steadyFrame 100).dt = eastCamFrame.dt ∧ (steadyFrame 100).mixer = eastCamFrame.mixer ∧
      (tick refMath longStrideStart (steadyFrame 100)).waypointIndex = 1 ∧
      (tick refMath longStrideStart eastCamFrame).waypointIndex = 0 := by
  obtain ⟨htgt, hpos, hrot, hv, hstride, hacc, hprox, hdx, hdz, hd⟩ := longStrideStart_facts
  have hlen : 2 ≤ longStrideStart.path.length := by decide
  refine ⟨rfl, rfl, ?_, ?_⟩
  · -- no camera: aligned, accelerates, arrives
    have hhead : headY refMath longStrideStart (steadyFrame 100) = 0 := by
      show refAtan2Deg (dx longStrideStart) (dz longStrideStart) = 0
      rw [hdx, hdz]
      exact refAtan2Deg_north (by norm_num)
    have hdiff : diff refMath longStrideStart (steadyFrame 100) = 0 := by
      rw [diff, hhead, hrot, sub_self, normalizeDiff_of_mem (by norm_num) (by norm_num)]
    have hangle : angleOk refMath longStrideStart (steadyFrame 100) = true := by
      rw [angleOk, hdiff, ANGLE_THRESHOLD_DEG]; exact decide_eq_true (by norm_num)
    have hfar : decide (dist refMath longStrideStart > stopDist) = true := by
      rw [hd, stopDist]; exact decide_eq_true (by norm_num)
    have hprobe : pointInObstacleIn OBSTACLES (probe refMath longStrideStart).1
        (probe refMath longStrideStart).2 = false := by
      simp only [probe, hdx, hdz, hd, hstride, hpos]
      simp [pointInObstacleIn, OBSTACLES]
      norm_num
    have hwant : wantMove OBSTACLES refMath longStrideStart (steadyFrame 100) = true := by
      rw [wantMove, hangle, hfar, hprobe]; rfl
    have hdt : dtSec (steadyFrame 100) = 0.1 := by
      simp only [dtSec, steadyFrame]; norm_num
    have hraw : targetSpeedRaw longStrideStart (steadyFrame 100) = 30 := by
      have hc : clipDuration (steadyFrame 100) = 1 := rfl
      rw [targetSpeedRaw, hc, if_pos (by norm_num), hstride]; norm_num
    have htsp : targetSpeed refMath longStrideStart (steadyFrame 100) = 30 := by
      rw [targetSpeed, hd, hraw, stopDist, if_neg (by norm_num), if_neg (by norm_num)]
    have hnew : newSpeed OBSTACLES refMath longStrideStart (steadyFrame 100) = 10.5 := by
      unfold newSpeed
      simp only [hwant, if_true, htsp, hraw, hv, accel, hacc, hdt]
      norm_num
    have harr : arrives OBSTACLES refMath longStrideStart (steadyFrame 100) := by
      unfold arrives
      rw [hnew, hd, hdt]
      exact Or.inl (by norm_num)
    rw [tick, tickIn_procedural OBSTACLES refMath longStrideStart (steadyFrame 100) hlen rfl,
      proceduralBranch_waypointIndex_skip _ _ _ _ (Or.inl harr)]
    rfl
  · -- camera due east: turns to the camera, not aligned, stays
    have hhyp : refMath.hypot (16 - 15) (5 - 5) = 1 := by
      show refSqrt ((16 - 15) * (16 - 15) + (5 - 5) * (5 - 5)) = 1
      have h : ((16 : ℚ) - 15) * (16 - 15) + (5 - 5) * (5 - 5) = 1 * 1 + 0 * 0 := by norm_num
      rw [h]
      exact refSqrt_axis (by norm_num)
    have hhead : headY refMath longStrideStart eastCamFrame = 90 := by
      simp only [headY, eastCamFrame, hhyp, hprox]
      rw [if_pos ⟨by norm_num, by norm_num⟩]
      show refAtan2Deg (16 - 15) (5 - 5) = 90
      rw [sub_self]
      exact refAtan2Deg_east (by norm_num)
    have hdiff : diff refMath longStrideStart eastCamFrame = 90 := by
      rw [diff, hhead, hrot, sub_zero, normalizeDiff_of_mem (by norm_num) (by norm_num)]
    have hangle : angleOk refMath longStrideStart eastCamFrame = false := by
      rw [angleOk, hdiff, ANGLE_THRESHOLD_DEG]; exact decide_eq_false (by norm_num)
    have hwant : wantMove OBSTACLES refMath longStrideStart eastCamFrame = false := by
      rw [wantMove, hangle]; rfl
    have hnew := newSpeed_eq_zero OBSTACLES refMath longStrideStart eastCamFrame hv hwant
    have harr : ¬ arrives OBSTACLES refMath longStrideStart eastCamFrame := by
      unfold arrives
      rw [hnew, hd, stopDist]
      norm_num
    have hblk : ¬ blocked OBSTACLES refMath longStrideStart eastCamFrame := by
      unfold blocked
      rw [landing_of_newSpeed_zero _ _ _ _ hnew, hpos]
      simp [clampToBounds, BOUNDS, pointInObstacleIn, OBSTACLES]
      norm_num
    rw [tick, tickIn_procedural OBSTACLES refMath longStrideStart eastCamFrame hlen rfl,
      proceduralBranch_waypointIndex_commit _ _ _ _ harr hblk]
    rfl

/-! ## C10: root motion without displacement -/

theorem rootMotionBranch_moving (obs : List Rect) (M : MathLib) (s : State) (e : Env) :
    (rootMotionBranch obs M s e).moving =
      if dist M s ≤ 0.6 then false else angleOk M s e := by
  unfold rootMotionBranch
  simp only []
  split_ifs <;> simp [turned, advance]

theorem rootMotionBranch_groundOffset (obs : List Rect) (M : MathLib) (s : State) (e : Env) :
    (rootMotionBranch obs M s e).groundOffset = some (groundOffsetOf s) := by
  unfold rootMotionBranch
  simp only []
  split_ifs <;> simp [turned, advance]

theorem dist_congr (M : MathLib) {s t : State} (hp : t.path = s.path)
    (hw : t.waypointIndex = s.waypointIndex) (hpos : t.position = s.position) :
    dist M t = dist M s := by
  unfold dist dx dz target idx
  rw [hp, hw, hpos]

/-- One root-motion tick of an agent inside the bounds whose ground offset is not yet
captured, or was captured from its present height. -/
theorem rootMotion_step (M : MathLib) (s : State) (e : Env) (hlen : 2 ≤ s.path.length)
    (hr : hasRootMotion e = true) (hb : inBounds s.position)
    (hg : s.groundOffset = none ∨ s.groundOffset = some (s.position.y - GROUND_Y)) :
    (tick M s e).position = s.position ∧
      (tick M s e).groundOffset = some (s.position.y - GROUND_Y) ∧
      (0.6 < dist M s → pointInObstacle s.position.x s.position.z = false →
        (tick M s e).waypointIndex = s.waypointIndex) := by
  have hoff : groundOffsetOf s = s.position.y - GROUND_Y := by
    unfold groundOffsetOf
    rcases hg with h | h <;> rw [h]
  rw [tick, tickIn_root _ _ _ _ hlen hr]
  refine ⟨?_, by rw [rootMotionBranch_groundOffset, hoff], fun hd ho => ?_⟩
  · rw [rootMotionBranch_position, clampToBounds_of_inBounds hb, hoff]
    simp
  · rw [rootMotionBranch_waypointIndex, clampToBounds_of_inBounds hb, if_neg (not_le.mpr hd)]
    unfold pointInObstacle at ho
    rw [ho]
    rfl

theorem rootMotion_run (M : MathLib) (s : State) (es : List Env) (hlen : 2 ≤ s.path.length)
    (hroot : ∀ e ∈ es, hasRootMotion e = true) (hb : inBounds s.position)
    (hg : s.groundOffset = none ∨ s.groundOffset = some (s.position.y - GROUND_Y)) :
    (run M s es).position = s.position ∧ (run M s es).path = s.path ∧
      (0.6 < dist M s → pointInObstacle s.position.x s.position.z = false →
        (run M s es).waypointIndex = s.waypointIndex) := by
  induction es generalizing s with
  | nil => exact ⟨rfl, rfl, fun _ _ => rfl⟩
  | cons e es ih =>
    obtain ⟨h1, h2, h3⟩ := rootMotion_step M s e hlen (hroot e (List.mem_cons_self _ _)) hb hg
    have hpath : (tick M s e).path = s.path := tickIn_path _ _ _ _
    have ih' := ih (tick M s e) (by rw [hpath]; exact hlen)
      (fun e' he' => hroot e' (List.mem_cons_of_mem _ he')) (by rw [h1]; exact hb)
      (Or.inr (by rw [h2, h1]))
    have hrun : run M s (e :: es) = run M (tick M s e) es := rfl
    rw [hrun]
    refine ⟨by rw [ih'.1, h1], by rw [ih'.2.1, hpath], fun hd ho => ?_⟩
    have hw := h3 hd ho
    rw [ih'.2.2 (by rw [dist_congr M hpath hw h1]; exact hd) (by rw [h1]; exact ho), hw]

/-- C10 (as amended): in root-motion mode with no displacement between ticks, from a
position inside World Bounds whose ground offset is not yet captured (or was captured from
its present height), after any number of consecutive ticks (10 in particular) the position
equals the position before the first tick; the waypoint index is unchanged provided the
agent is farther than 0.6 from its target and outside every obstacle rectangle; and a
further tick marks the agent moving exactly when it is farther than 0.6 from its target
and its pre-turn heading difference satisfies `|diff| < 38` (idle otherwise). -/
theorem C10_root_motion_still (M : MathLib) (s : State) (es : List Env) (e : Env)
    (hlen : 2 ≤ s.path.length) (hroot : ∀ e' ∈ es, hasRootMotion e' = true)
    (hr : hasRootMotion e = true) (hb : inBounds s.position)
    (hg : s.groundOffset = none ∨ s.groundOffset = some (s.position.y - GROUND_Y)) :
    (run M s es).position = s.position ∧
    (0.6 < dist M s → pointInObstacle s.position.x s.position.z = false →
      (run M s es).waypointIndex = s.waypointIndex) ∧
    (tick M (run M s es) e).moving =
      (decide (0.6 < dist M (run M s es)) && angleOk M (run M s es) e) := by
  obtain ⟨h1, h2, h3⟩ := rootMotion_run M s es hlen hroot hb hg
  refine ⟨h1, h3, ?_⟩
  rw [tick, tickIn_root _ _ _ _ (by rw [h2]; exact hlen) hr, rootMotionBranch_moving]
  by_cases hd : dist M (run M s es) ≤ 0.6
  · rw [if_pos hd, decide_eq_false (not_lt.mpr hd)]
    rfl
  · rw [if_neg hd, decide_eq_true (not_le.mp hd)]
    rfl

theorem C10_root_motion_still_witness :
    2 ≤ freeStart.path.length ∧
      (run refMath freeStart (List.replicate 10 rootFrame)).position = freeStart.position :=
  ⟨by decide,
    (C10_root_motion_still refMath freeStart (List.replicate 10 rootFrame) rootFrame (by decide)
      (fun e he => by rw [List.eq_of_mem_replicate he]; rfl) rfl
      (by simp [inBounds, freeStart, init, BOUNDS]; norm_num) (Or.inl rfl)).1⟩

/-- C10 (as stated) fails: right after `init` on the path [(15,5), (15,10)] the agent is
five units from its target and faces it; a root-motion tick with no displacement leaves
the position at (15, 5) and sets `moving` to true (the move time-scale is requested), not
idle. -/
theorem C10_counterexample :
    hasRootMotion rootFrame = true ∧
      (tick refMath freeStart rootFrame).position = freeStart.position ∧
      (tick refMath freeStart rootFrame).moving = true := by
  have hlen : 2 ≤ freeStart.path.length := by decide
  have htgt : target freeStart = ⟨15, 10⟩ := rfl
  have hpos : freeStart.position = ⟨15, 0, 5⟩ := rfl
  have hdx : dx freeStart = 0 := by rw [dx, htgt, hpos]; norm_num
  have hdz : dz freeStart = 5 := by rw [dz, htgt, hpos]; norm_num
  have hd : dist refMath freeStart = 5 := by
    rw [dist, hdx, hdz]
    exact refSqrt_axis_z (by norm_num)
  have hrot : freeStart.currentRotationY = 0 := by
    show refAtan2Deg (15 - 15) (10 - 5) = 0
    rw [sub_self]
    exact refAtan2Deg_north (by norm_num)
  have hhead : headY refMath freeStart rootFrame = 0 := by
    show refAtan2Deg (dx freeStart) (dz freeStart) = 0
    rw [hdx, hdz]
    exact refAtan2Deg_north (by norm_num)
  have hdiff : diff refMath freeStart rootFrame = 0 := by
    rw [diff, hhead, hrot, sub_self, normalizeDiff_of_mem (by norm_num) (by norm_num)]
  have hangle : angleOk refMath freeStart rootFrame = true := by
    rw [angleOk, hdiff, ANGLE_THRESHOLD_DEG]; exact decide_eq_true (by norm_num)
  have hb : inBounds freeStart.position := by
    rw [hpos]; simp [inBounds, BOUNDS]; norm_num
  refine ⟨rfl, (rootMotion_step refMath freeStart rootFrame hlen rfl hb (Or.inl rfl)).1, ?_⟩
  rw [tick, tickIn_root OBSTACLES refMath freeStart rootFrame hlen rfl, rootMotionBranch_moving,
    hd, if_neg (by norm_num), hangle]

/-! ## Supporting examples: each side condition of the amended claims is needed -/

/-- C3, the clip duration: with a mixer that reports a clip duration of -1 the tick falls
back to `data.speed`, and the speed after the update is not below the (negative) value
`1.05 * stride / clipDuration`. -/
theorem speed_range_needs_positive_clip :
    hasRootMotion negativeClipFrame = false ∧ clipDuration negativeClipFrame = -1 ∧
      0 ≤ freeStart.data.stride ∧
      ¬ ((tick refMath freeStart negativeClipFrame).currentSpeed ≤
          1.05 * freeStart.data.stride / clipDuration negativeClipFrame) := by
  have hc : clipDuration negativeClipFrame = -1 := by
    simp [clipDuration, negativeClipFrame]
  have hs : freeStart.data.stride = 0.45 := by simp [freeStart, init, DEFAULT_STRIDE_M]
  have h0 : 0 ≤ (tick refMath freeStart negativeClipFrame).currentSpeed := by
    rw [tick, tickIn_procedural OBSTACLES refMath freeStart negativeClipFrame (by decide) rfl,
      proceduralBranch_currentSpeed]
    exact newSpeed_nonneg _ _ _ _
  refine ⟨rfl, hc, by rw [hs]; norm_num, ?_⟩
  rw [hc, hs]
  intro h
  have : (1.05 : ℚ) * 0.45 / -1 < 0 := by norm_num
  linarith

/-- C9 with the default stride: right after `init` on the path [(2.19,7), (5,7)] and with
frames of 100 ms, the tick without a camera accelerates to 0.1575, lands at (2.20575, 7)
outside the obstacle and keeps the waypoint index 0; the tick with the camera one unit
due north fails the alignment test, keeps speed 0, finds its own position blocked and
advances the waypoint index to 1. -/
theorem observer_changes_index_default_stride :
    (steadyFrame 100).dt = edgeCamFrame.dt ∧ (steadyFrame 100).mixer = edgeCamFrame.mixer ∧
      (tick refMath edgeStart (steadyFrame 100)).waypointIndex = 0 ∧
      (tick refMath edgeStart edgeCamFrame).waypointIndex = 1 := by
  have hlen : 2 ≤ edgeStart.path.length := by decide
  have htgt : target edgeStart = ⟨5, 7⟩ := rfl
  have hpos : edgeStart.position = ⟨2.19, 0, 7⟩ := rfl
  have hv : edgeStart.currentSpeed = 0 := rfl
  have hstride : edgeStart.data.stride = 0.45 := by simp [edgeStart, init, DEFAULT_STRIDE_M]
  have hacc : edgeStart.data.accelRate = 3.5 := by simp [edgeStart, init, ACCEL_RATE]
  have hprox : edgeStart.data.proximity = 5 := rfl
  have hdx : dx edgeStart = 2.81 := by rw [dx, htgt, hpos]; norm_num
  have hdz : dz edgeStart = 0 := by rw [dz, htgt, hpos]; norm_num
  have hd : dist refMath edgeStart = 2.81 := by
    rw [dist, hdx, hdz]
    exact refSqrt_axis (by norm_num)
  have hrot : edgeStart.currentRotationY = 90 := by
    show refAtan2Deg (5 - 2.19) (7 - 7) = 90
    rw [sub_self]
    exact refAtan2Deg_east (by norm_num)
  refine ⟨rfl, rfl, ?_, ?_⟩
  · have hhead : headY refMath edgeStart (steadyFrame 100) = 90 := by
      show refAtan2Deg (dx edgeStart) (dz edgeStart) = 90
      rw [hdx, hdz]
      exact refAtan2Deg_east (by norm_num)
    have hdiff : diff refMath edgeStart (steadyFrame 100) = 0 := by
      rw [diff, hhead, hrot, sub_self, normalizeDiff_of_mem (by norm_num) (by norm_num)]
    have hangle : angleOk refMath edgeStart (steadyFrame 100) = true := by
      rw [angleOk, hdiff, ANGLE_THRESHOLD_DEG]; exact decide_eq_true (by norm_num)
    have hfar : decide (dist refMath edgeStart > stopDist) = true := by
      rw [hd, stopDist]; exact decide_eq_true (by norm_num)
    have hprobe : pointInObstacleIn OBSTACLES (probe refMath edgeStart).1
        (probe refMath edgeStart).2 = false := by
      simp only [probe, hdx, hdz, hd, hstride, hpos]
      simp [pointInObstacleIn, OBSTACLES]
      norm_num
    have hwant : wantMove OBSTACLES refMath edgeStart (steadyFrame 100) = true := by
      rw [wantMove, hangle, hfar, hprobe]; rfl
    have hdt : dtSec (steadyFrame 100) = 0.1 := by
      simp only [dtSec, steadyFrame]; norm_num
    have hraw : targetSpeedRaw edgeStart (steadyFrame 100) = 0.45 := by
      have hc : clipDuration (steadyFrame 100) = 1 := rfl
      rw [targetSpeedRaw, hc, if_pos (by norm_num), hstride]; norm_num
    have htsp : targetSpeed refMath edgeStart (steadyFrame 100) = 0.45 := by
      rw [targetSpeed, hd, hraw, stopDist, if_neg (by norm_num), if_neg (by norm_num)]
    have hnew : newSpeed OBSTACLES refMath edgeStart (steadyFrame 100) = 0.1575 := by
      unfold newSpeed
      simp only [hwant, if_true, htsp, hraw, hv, accel, hacc, hdt]
      norm_num
    have harr : ¬ arrives OBSTACLES refMath edgeStart (steadyFrame 100) := by
      unfold arrives
      rw [hnew, hd, hdt, stopDist]
      norm_num
    have hblk : ¬ blocked OBSTACLES refMath edgeStart (steadyFrame 100) := by
      unfold blocked
      simp only [landing, hnew, hdt, hdx, hdz, hd, hpos, clampToBounds, BOUNDS]
      simp [pointInObstacleIn, OBSTACLES]
      norm_num
    rw [tick, tickIn_procedural OBSTACLES refMath edgeStart (steadyFrame 100) hlen rfl,
      proceduralBranch_waypointIndex_commit _ _ _ _ harr hblk]
    rfl
  · have hhyp : refMath.hypot (2.19 - 2.19) (8 - 7) = 1 := by
      show refSqrt ((2.19 - 2.19) * (2.19 - 2.19) + (8 - 7) * (8 - 7)) = 1
      have h : ((2.19 : ℚ) - 2.19) * (2.19 - 2.19) + (8 - 7) * (8 - 7) = 0 * 0 + 1 * 1 := by
        norm_num
      rw [h]
      exact refSqrt_axis_z (by norm_num)
    have hhead : headY refMath edgeStart edgeCamFrame = 0 := by
      simp only [headY, edgeCamFrame, hhyp, hprox]
      rw [if_pos ⟨by norm_num, by norm_num⟩]
      show refAtan2Deg (2.19 - 2.19) (8 - 7) = 0
      rw [sub_self]
      exact refAtan2Deg_north (by norm_num)
    have hdiff : diff refMath edgeStart edgeCamFrame = -90 := by
      rw [diff, hhead, hrot, zero_sub, normalizeDiff_of_mem (by norm_num) (by norm_num)]
    have hangle : angleOk refMath edgeStart edgeCamFrame = false := by
      rw [angleOk, hdiff, ANGLE_THRESHOLD_DEG]; exact decide_eq_false (by norm_num)
    have hwant : wantMove OBSTACLES refMath edgeStart edgeCamFrame = false := by
      rw [wantMove, hangle]; rfl
    have hnew := newSpeed_eq_zero OBSTACLES refMath edgeStart edgeCamFrame hv hwant
    have hblk : blocked OBSTACLES refMath edgeStart edgeCamFrame := by
      unfold blocked
      rw [landing_of_newSpeed_zero _ _ _ _ hnew, hpos]
      simp [clampToBounds, BOUNDS, pointInObstacleIn, OBSTACLES]
      norm_num
    rw [tick, tickIn_procedural OBSTACLES refMath edgeStart edgeCamFrame hlen rfl,
      proceduralBranch_waypointIndex_skip _ _ _ _ (Or.inr hblk)]
    rfl

/-- C10, the bounds: a root-motion tick of an agent that `init` placed at (100, 100)
writes the clamped position (17.5, 13.5). -/
theorem rootMotion_clamps_outside_start :
    (tick refMath farStart rootFrame).position = ⟨17.5, 0, 13.5⟩ := by
  rw [tick, tickIn_root OBSTACLES refMath farStart rootFrame (by decide) rfl,
    rootMotionBranch_position]
  have hpos : farStart.position = ⟨100, 0, 100⟩ := rfl
  have hoff : groundOffsetOf farStart = 0 := by
    simp [groundOffsetOf, farStart, init, GROUND_Y]
  rw [hoff, hpos]
  simp [clampToBounds, BOUNDS, GROUND_Y]
  norm_num

/-- C10, the obstacles: a root-motion tick of an agent that `init` placed at (0, 0),
inside the first obstacle rectangle and ten units from its target, advances the waypoint
index although the agent is not within 0.6 of the target. -/
theorem rootMotion_advances_in_obstacle :
    dist refMath loopStart = 10 ∧ (tick refMath loopStart rootFrame).waypointIndex = 1 := by
  have htgt : target loopStart = ⟨10, 0⟩ := rfl
  have hpos : loopStart.position = ⟨0, 0, 0⟩ := rfl
  have hdx : dx loopStart = 10 := by rw [dx, htgt, hpos]; norm_num
  have hdz : dz loopStart = 0 := by rw [dz, htgt, hpos]; norm_num
  have hd : dist refMath loopStart = 10 := by
    rw [dist, hdx, hdz]
    exact refSqrt_axis (by norm_num)
  have hin : pointInObstacleIn OBSTACLES (clampToBounds loopStart.position).x
      (clampToBounds loopStart.position).z = true := by
    rw [hpos]
    simp [clampToBounds, BOUNDS, pointInObstacleIn, OBSTACLES]
    norm_num
  have hfar : ¬ (dist refMath loopStart ≤ 0.6) := by rw [hd]; norm_num
  refine ⟨hd, ?_⟩
  rw [tick, tickIn_root OBSTACLES refMath loopStart rootFrame (by decide) rfl,
    rootMotionBranch_waypointIndex, hin, if_pos rfl, if_neg hfar]
  rfl

/-! ## C11: the cruising speed -/

theorem clipDuration_of_pos {e : Env} {m : Mixer} (hm : e.mixer = some m)
    (h : 0 < m.clipDuration) : clipDuration e = m.clipDuration := by
  unfold clipDuration
  rw [hm]
  exact if_neg h.ne'

theorem clipDuration_of_zero {e : Env} {m : Mixer} (hm : e.mixer = some m)
    (h : m.clipDuration = 0) : clipDuration e = 1 := by
  unfold clipDuration
  rw [hm]
  exact if_pos h

theorem clipDuration_of_neg {e : Env} {m : Mixer} (hm : e.mixer = some m)
    (h : m.clipDuration < 0) : clipDuration e = m.clipDuration := by
  unfold clipDuration
  rw [hm]
  exact if_neg h.ne

/-- C11 (as amended): `targetSpeedRaw` equals `stride / clipDuration` when the mixer
reports a positive clip duration; when the mixer reports a clip duration of zero, or no
mixer is attached, the tick uses the clip duration 1 and `targetSpeedRaw` equals the
stride; the configured base speed `data.speed` is used only for a negative reported
duration. -/
theorem C11_target_speed_raw (s : State) (e : Env) :
    (∀ m : Mixer, e.mixer = some m → 0 < m.clipDuration →
      targetSpeedRaw s e = s.data.stride / m.clipDuration) ∧
    (∀ m : Mixer, e.mixer = some m → m.clipDuration = 0 →
      clipDuration e = 1 ∧ targetSpeedRaw s e = s.data.stride) ∧
    (e.mixer = none → clipDuration e = 1 ∧ targetSpeedRaw s e = s.data.stride) ∧
    (∀ m : Mixer, e.mixer = some m → m.clipDuration < 0 →
      targetSpeedRaw s e = s.data.speed) := by
  refine ⟨fun m hm h => ?_, fun m hm h => ?_, fun hm => ?_, fun m hm h => ?_⟩
  · rw [targetSpeedRaw, clipDuration_of_pos hm h, if_pos h]
  · have hc := clipDuration_of_zero hm h
    refine ⟨hc, ?_⟩
    rw [targetSpeedRaw, hc, if_pos one_pos, div_one]
  · have hc : clipDuration e = 1 := by unfold clipDuration; rw [hm]
    refine ⟨hc, ?_⟩
    rw [targetSpeedRaw, hc, if_pos one_pos, div_one]
  · rw [targetSpeedRaw, clipDuration_of_neg hm h, if_neg (not_lt.mpr h.le)]

theorem C11_target_speed_raw_witness :
    targetSpeedRaw freeStart twoSecondClipFrame = freeStart.data.stride / 2 :=
  (C11_target_speed_raw freeStart twoSecondClipFrame).1
    { rootMotionNode := false, clipDuration := 2, activeAction := true } rfl (by norm_num)

/-- C11 (as stated) fails for a reported clip duration of zero: `0 || 1` is 1, so with the
default stride 0.45 and base speed 0.7 the tick computes `targetSpeedRaw = 0.45 / 1`, not
the base speed 0.7. -/
theorem C11_counterexample :
    hasRootMotion zeroClipFrame = false ∧
      zeroClipFrame.mixer =
        some { rootMotionNode := false, clipDuration := 0, activeAction := false } ∧
      freeStart.data.speed = 0.7 ∧ targetSpeedRaw freeStart zeroClipFrame = 0.45 ∧
      targetSpeedRaw freeStart zeroClipFrame ≠ freeStart.data.speed := by
  have hc : clipDuration zeroClipFrame = 1 := clipDuration_of_zero rfl rfl
  have hs : freeStart.data.stride = 0.45 := by simp [freeStart, init, DEFAULT_STRIDE_M]
  have hraw : targetSpeedRaw freeStart zeroClipFrame = 0.45 := by
    rw [targetSpeedRaw, hc, if_pos one_pos, div_one, hs]
  have hsp : freeStart.data.speed = 0.7 := rfl
  refine ⟨rfl, rfl, hsp, hraw, ?_⟩
  rw [hraw, hsp]
  norm_num

/-! ## C12: the bounds clamp -/

/-- C12: `clampToBounds` maps every point into World Bounds; the new `x` is the clamp of
the old `x` alone, the new `z` the clamp of the old `z` alone, and `y` is kept; a point
inside World Bounds is returned unchanged; and clamping twice is clamping once. -/
theorem C12_clamp (p : Vec3) :
    (-7.5 ≤ (clampToBounds p).x ∧ (clampToBounds p).x ≤ 17.5 ∧
      -7.5 ≤ (clampToBounds p).z ∧ (clampToBounds p).z ≤ 13.5) ∧
    ((clampToBounds p).x = max (-7.5) (min 17.5 p.x) ∧
      (clampToBounds p).z = max (-7.5) (min 13.5 p.z) ∧ (clampToBounds p).y = p.y) ∧
    (∀ q : Vec3, q.x = p.x → (clampToBounds q).x = (clampToBounds p).x) ∧
    (∀ q : Vec3, q.z = p.z → (clampToBounds q).z = (clampToBounds p).z) ∧
    (inBounds p → clampToBounds p = p) ∧
    clampToBounds (clampToBounds p) = clampToBounds p := by
  refine ⟨clampToBounds_inBounds p, ⟨rfl, rfl, rfl⟩, fun q h => ?_, fun q h => ?_,
    fun h => clampToBounds_of_inBounds h, clampToBounds_of_inBounds (clampToBounds_inBounds p)⟩
  · simp only [clampToBounds, h]
  · simp only [clampToBounds, h]

theorem C12_clamp_witness : clampToBounds ⟨15, 0, 5⟩ = ⟨15, 0, 5⟩ :=
  (C12_clamp ⟨15, 0, 5⟩).2.2.2.2.1 (by simp [inBounds, BOUNDS]; norm_num)

/-! ## C13: the capped frame time -/

theorem dtSec_le (e : Env) : dtSec e ≤ 0.1 := min_le_right _ _

theorem dtSec_nonneg {e : Env} (h : 0 ≤ e.dt) : 0 ≤ dtSec e :=
  le_min (div_nonneg h (by norm_num)) (by norm_num)

/-- Clamping a coordinate to an interval that contains `x` does not move it away
from `x`. -/
theorem clamp_sub_sq_le {lo hi x a : ℚ} (h1 : lo ≤ x) (h2 : x ≤ hi) :
    (max lo (min hi a) - x) ^ 2 ≤ (a - x) ^ 2 := by
  rcases le_total a hi with h | h
  · rw [min_eq_right h]
    rcases le_total lo a with h' | h'
    · rw [max_eq_right h']
    · rw [max_eq_left h']
      nlinarith [mul_nonneg (sub_nonneg.mpr h') (add_nonneg (sub_nonneg.mpr (le_trans h' h1))
        (sub_nonneg.mpr h1))]
  · rw [min_eq_left h, max_eq_right (le_trans h1 h2)]
    nlinarith [mul_nonneg (sub_nonneg.mpr h) (add_nonneg (sub_nonneg.mpr (le_trans h2 h))
      (sub_nonneg.mpr h2))]

theorem abs_turnStep_le (M : MathLib) (s : State) (e : Env) (h : 0 ≤ turnSpeed s e) :
    |turnStep M s e| ≤ turnSpeed s e := by
  unfold turnStep
  have hmin : 0 ≤ min |diff M s e| (turnSpeed s e) := le_min (abs_nonneg _) h
  rw [abs_mul, abs_of_nonneg hmin]
  have hs : |mathSign (diff M s e)| ≤ 1 := by
    unfold mathSign
    split_ifs <;> norm_num
  calc |mathSign (diff M s e)| * min |diff M s e| (turnSpeed s e)
      ≤ 1 * min |diff M s e| (turnSpeed s e) := mul_le_mul_of_nonneg_right hs hmin
    _ = min |diff M s e| (turnSpeed s e) := one_mul _
    _ ≤ turnSpeed s e := min_le_right _ _

/-- The bearing vector `(dx / dist, dz / dist)` is at most a unit vector when `dist` is
positive and not below the true distance. -/
theorem bearing_sq_le_one {a b d : ℚ} (hd : 0 < d) (h : a * a + b * b ≤ d * d) :
    (a / d) ^ 2 + (b / d) ^ 2 ≤ 1 := by
  have hd2 : 0 < d * d := mul_pos hd hd
  have e1 : (a / d) ^ 2 + (b / d) ^ 2 = (a * a + b * b) / (d * d) := by
    field_simp
    ring
  rw [e1, div_le_one hd2]
  exact h

/-- The bounds of one tick that passes the path-length guard. -/
theorem step_bounds_of_long_path (M : MathLib) (s : State) (e : Env)
    (hlen : 2 ≤ s.path.length)
    (hdt : 0 ≤ e.dt) (hturn : 0 ≤ s.data.turnSpeed) (hstride : 0 ≤ s.data.stride) :
    (dtSec e = min (e.dt / 1000) 0.1 ∧ 0 ≤ dtSec e ∧ dtSec e ≤ 0.1) ∧
    |(tick M s e).currentRotationY - s.currentRotationY| ≤ 0.1 * s.data.turnSpeed ∧
    (hasRootMotion e = false → inBounds s.position → 0 < clipDuration e →
      dx s * dx s + dz s * dz s ≤ dist M s * dist M s →
      ((tick M s e).position.x - s.position.x) ^ 2 +
          ((tick M s e).position.z - s.position.z) ^ 2 ≤
        (0.1 * 1.05 * targetSpeedRaw s e) ^ 2) := by
  have hd0 := dtSec_nonneg hdt
  have hd1 := dtSec_le e
  refine ⟨⟨rfl, hd0, hd1⟩, ?_, fun hr hb hc hM => ?_⟩
  · rw [tick, tickIn_currentRotationY _ _ _ _ hlen, add_sub_cancel_left]
    have hT : 0 ≤ turnSpeed s e := mul_nonneg hturn hd0
    have h1 := abs_turnStep_le M s e hT
    have h2 : turnSpeed s e ≤ 0.1 * s.data.turnSpeed := by
      unfold turnSpeed
      nlinarith [mul_le_mul_of_nonneg_left hd1 hturn]
    linarith
  · have hraw : targetSpeedRaw s e = s.data.stride / clipDuration e := by
      rw [targetSpeedRaw, if_pos hc]
    have hraw0 : 0 ≤ targetSpeedRaw s e := by rw [hraw]; exact div_nonneg hstride hc.le
    have hv0 := newSpeed_nonneg OBSTACLES M s e
    have hv1 := newSpeed_le OBSTACLES M s e hraw0
    have hm0 : 0 ≤ newSpeed OBSTACLES M s e * dtSec e := mul_nonneg hv0 hd0
    have hm1 : newSpeed OBSTACLES M s e * dtSec e ≤ 0.1 * 1.05 * targetSpeedRaw s e := by
      nlinarith [mul_le_mul_of_nonneg_left hd1 hv0, mul_nonneg hraw0 hd0]
    rw [tick, tickIn_procedural _ _ _ _ hlen hr]
    by_cases h : arrives OBSTACLES M s e ∨ blocked OBSTACLES M s e
    · rw [proceduralBranch_position_skip _ _ _ _ h]
      have : 0 ≤ (0.1 * 1.05 * targetSpeedRaw s e) ^ 2 := sq_nonneg _
      simpa using this
    · push_neg at h
      obtain ⟨ha, hb'⟩ := h
      have hfar : 0 < dist M s := by
        unfold arrives at ha
        push_neg at ha
        have := ha.2
        unfold stopDist at this
        linarith
      have hu := bearing_sq_le_one hfar hM
      obtain ⟨b1, b2, b3, b4⟩ := hb
      rw [proceduralBranch_position_commit _ _ _ _ ha hb']
      simp only [clampToBounds, landing]
      have hx := clamp_sub_sq_le (a := s.position.x + dx s / dist M s *
        (newSpeed OBSTACLES M s e * dtSec e)) b1 b2
      have hz := clamp_sub_sq_le (a := s.position.z + dz s / dist M s *
        (newSpeed OBSTACLES M s e * dtSec e)) b3 b4
      have e1 : (s.position.x + dx s / dist M s * (newSpeed OBSTACLES M s e * dtSec e) -
          s.position.x) ^ 2 + (s.position.z + dz s / dist M s *
          (newSpeed OBSTACLES M s e * dtSec e) - s.position.z) ^ 2 =
          ((dx s / dist M s) ^ 2 + (dz s / dist M s) ^ 2) *
            (newSpeed OBSTACLES M s e * dtSec e) ^ 2 := by ring
      have e2 : ((dx s / dist M s) ^ 2 + (dz s / dist M s) ^ 2) *
          (newSpeed OBSTACLES M s e * dtSec e) ^ 2 ≤
          1 * (newSpeed OBSTACLES M s e * dtSec e) ^ 2 :=
        mul_le_mul_of_nonneg_right hu (sq_nonneg _)
      have e3 : (newSpeed OBSTACLES M s e * dtSec e) ^ 2 ≤
          (0.1 * 1.05 * targetSpeedRaw s e) ^ 2 := pow_le_pow_left₀ hm0 hm1 2
      linarith

theorem refMath_dist_sound (s : State) :
    dx s * dx s + dz s * dz s ≤ dist refMath s * dist refMath s :=
  le_refSqrt_sq _ (add_nonneg (mul_self_nonneg _) (mul_self_nonneg _))

/-- C13: for `dt >= 0`, `turnSpeed >= 0` and `stride >= 0`, the elapsed time used by the
tick is `min(dt / 1000, 0.1)`, between 0 and 0.1; one tick changes the heading by at most
`0.1 * turnSpeed` degrees; and a procedural tick from a position inside World Bounds (with
the positive clip duration the tick uses, and `dist` not below the true distance) moves
the agent by a planar distance of at most `0.1 * 1.05 * targetSpeedRaw`. -/
theorem C13_step_bounds (M : MathLib) (s : State) (e : Env)
    (hdt : 0 ≤ e.dt) (hturn : 0 ≤ s.data.turnSpeed) (hstride : 0 ≤ s.data.stride) :
    (dtSec e = min (e.dt / 1000) 0.1 ∧ 0 ≤ dtSec e ∧ dtSec e ≤ 0.1) ∧
    |(tick M s e).currentRotationY - s.currentRotationY| ≤ 0.1 * s.data.turnSpeed ∧
    (hasRootMotion e = false → inBounds s.position → 0 < clipDuration e →
      dx s * dx s + dz s * dz s ≤ dist M s * dist M s →
      ((tick M s e).position.x - s.position.x) ^ 2 +
          ((tick M s e).position.z - s.position.z) ^ 2 ≤
        (0.1 * 1.05 * targetSpeedRaw s e) ^ 2) := by
  by_cases hlen : 2 ≤ s.path.length
  · exact step_bounds_of_long_path M s e hlen hdt hturn hstride
  · have hs : tick M s e = s := tickIn_short OBSTACLES M s e (by omega)
    rw [hs]
    refine ⟨⟨rfl, dtSec_nonneg hdt, dtSec_le e⟩, ?_, fun _ _ _ _ => ?_⟩
    · rw [sub_self, abs_zero]
      exact mul_nonneg (by norm_num) hturn
    · rw [sub_self, sub_self]
      have : 0 ≤ (0.1 * 1.05 * targetSpeedRaw s e) ^ 2 := sq_nonneg _
      simpa using this

theorem C13_step_bounds_witness :
    (0 : ℚ) ≤ plainFrame.dt ∧ 0 ≤ freeStart.data.turnSpeed ∧
      0 ≤ freeStart.data.stride ∧
      ((tick refMath freeStart plainFrame).position.x - freeStart.position.x) ^ 2 +
          ((tick refMath freeStart plainFrame).position.z - freeStart.position.z) ^ 2 ≤
        (0.1 * 1.05 * targetSpeedRaw freeStart plainFrame) ^ 2 :=
  ⟨by simp [plainFrame], by simp [freeStart, init, TURN_SPEED_DEG],
    by simp [freeStart, init, DEFAULT_STRIDE_M]; norm_num,
    (C13_step_bounds refMath freeStart plainFrame (by simp [plainFrame])
      (by simp [freeStart, init, TURN_SPEED_DEG])
      (by simp [freeStart, init, DEFAULT_STRIDE_M]; norm_num)).2.2 rfl
      (by simp [inBounds, freeStart, init, BOUNDS]; norm_num)
      (by simp [clipDuration, plainFrame]) (refMath_dist_sound freeStart)⟩

/-! ## C14: arrival and the landing point -/

theorem proceduralBranch_moving_commit (obs : List Rect) (M : MathLib) (s : State) (e : Env)
    (ha : ¬ arrives obs M s e) (hb : ¬ blocked obs M s e) :
    (proceduralBranch obs M s e).moving = decide (newSpeed obs M s e > 0.01) := by
  rw [proceduralBranch_commit obs M s e ha hb]
  simp

/-- C14: in procedural-stride mode, if after the speed update `dist <= 1.2` or
`dist <= 2 * currentSpeed * dtSec`, the tick advances the waypoint index by exactly one
modulo the path length, sets `moving` to false and leaves the position unchanged; if
neither holds, the candidate landing point is the current position plus
`(dx / dist, dz / dist)` times `currentSpeed * dtSec` (a unit vector when `dist` is the
true distance), and the position written, if the point is not blocked, is its clamp. -/
theorem C14_arrival (M : MathLib) (s : State) (e : Env) (hlen : 2 ≤ s.path.length)
    (hr : hasRootMotion e = false) :
    ((dist M s ≤ 1.2 ∨ dist M s ≤ 2 * (tick M s e).currentSpeed * dtSec e) →
      (tick M s e).waypointIndex = (s.waypointIndex + 1) % s.path.length ∧
      (tick M s e).moving = false ∧ (tick M s e).position = s.position) ∧
    (¬ (dist M s ≤ 1.2 ∨ dist M s ≤ 2 * (tick M s e).currentSpeed * dtSec e) →
      landing OBSTACLES M s e =
        { x := s.position.x + dx s / dist M s * ((tick M s e).currentSpeed * dtSec e)
          y := s.position.y
          z := s.position.z + dz s / dist M s * ((tick M s e).currentSpeed * dtSec e) } ∧
      (dist M s * dist M s = dx s * dx s + dz s * dz s →
        (dx s / dist M s) ^ 2 + (dz s / dist M s) ^ 2 = 1) ∧
      (¬ blocked OBSTACLES M s e →
        (tick M s e).position.x = (clampToBounds (landing OBSTACLES M s e)).x ∧
        (tick M s e).position.z = (clampToBounds (landing OBSTACLES M s e)).z ∧
        (tick M s e).waypointIndex = s.waypointIndex)) := by
  have hv : (tick M s e).currentSpeed = newSpeed OBSTACLES M s e := by
    rw [tick, tickIn_procedural _ _ _ _ hlen hr, proceduralBranch_currentSpeed]
  have harr : (dist M s ≤ 1.2 ∨ dist M s ≤ 2 * (tick M s e).currentSpeed * dtSec e) ↔
      arrives OBSTACLES M s e := by
    rw [hv, arrives, stopDist, or_comm]
    have e1 : 2 * newSpeed OBSTACLES M s e * dtSec e = newSpeed OBSTACLES M s e * dtSec e * 2 := by
      ring
    rw [e1]
  refine ⟨fun h => ?_, fun h => ?_⟩
  · have ha := harr.mp h
    rw [tick, tickIn_procedural _ _ _ _ hlen hr]
    exact ⟨proceduralBranch_waypointIndex_skip _ _ _ _ (Or.inl ha),
      proceduralBranch_moving_skip _ _ _ _ (Or.inl ha),
      proceduralBranch_position_skip _ _ _ _ (Or.inl ha)⟩
  · have ha : ¬ arrives OBSTACLES M s e := fun hc => h (harr.mpr hc)
    refine ⟨by rw [hv]; rfl, fun hM => ?_, fun hb => ?_⟩
    · have hfar : dist M s ≠ 0 := by
        intro h0
        apply ha
        right
        rw [h0, stopDist]
        norm_num
      have hd2 : dist M s * dist M s ≠ 0 := mul_ne_zero hfar hfar
      have e1 : (dx s / dist M s) ^ 2 + (dz s / dist M s) ^ 2 =
          (dx s * dx s + dz s * dz s) / (dist M s * dist M s) := by
        field_simp
        ring
      rw [e1, ← hM, div_self hd2]
    · rw [tick, tickIn_procedural _ _ _ _ hlen hr,
        proceduralBranch_position_commit _ _ _ _ ha hb,
        proceduralBranch_waypointIndex_commit _ _ _ _ ha hb]
      exact ⟨rfl, rfl, rfl⟩

theorem C14_arrival_witness :
    2 ≤ farStart.path.length ∧ hasRootMotion plainFrame = false ∧
      (tick refMath farStart plainFrame).waypointIndex = 1 ∧
      (tick refMath farStart plainFrame).moving = false ∧
      (tick refMath farStart plainFrame).position = farStart.position :=
  ⟨by decide, rfl,
    (C14_arrival refMath farStart plainFrame (by decide) rfl).1
      (Or.inl (by rw [dist_farStart]; norm_num))⟩

/-! ## C15: the movement gate -/

theorem wantMove_iff (obs : List Rect) (M : MathLib) (s : State) (e : Env) :
    wantMove obs M s e = true ↔
      |diff M s e| < 38 ∧ dist M s > 1.2 ∧
        pointInObstacleIn obs (probe M s).1 (probe M s).2 = false := by
  unfold wantMove angleOk ANGLE_THRESHOLD_DEG stopDist
  simp [and_assoc]

theorem newSpeed_eq_speedTarget (obs : List Rect) (M : MathLib) (s : State) (e : Env) :
    newSpeed obs M s e =
      max 0 (min (targetSpeedRaw s e * 1.05)
        (s.currentSpeed + (speedTarget obs M s e - s.currentSpeed) * accel s e)) := rfl

/-- C15 (as amended): in procedural-stride mode movement is permitted (`wantMove`) exactly
when the pre-turn heading difference satisfies `|diff| < 38`, `dist > 1.2`, and the probe
point `pos + 0.5 * stride * (dx / dist, dz / dist)` is inside no obstacle rectangle (the
probe is not tested against World Bounds); the blend target of the speed update is
`targetSpeed` when movement is permitted and 0 when it is not. -/
theorem C15_want_move (M : MathLib) (s : State) (e : Env) :
    (wantMove OBSTACLES M s e = true ↔
      |diff M s e| < 38 ∧ dist M s > 1.2 ∧
        pointInObstacle (s.position.x + dx s / dist M s * s.data.stride * 0.5)
          (s.position.z + dz s / dist M s * s.data.stride * 0.5) = false) ∧
    (wantMove OBSTACLES M s e = true → speedTarget OBSTACLES M s e = targetSpeed M s e) ∧
    (wantMove OBSTACLES M s e = false → speedTarget OBSTACLES M s e = 0) ∧
    newSpeed OBSTACLES M s e =
      max 0 (min (targetSpeedRaw s e * 1.05)
        (s.currentSpeed + (speedTarget OBSTACLES M s e - s.currentSpeed) * accel s e)) := by
  refine ⟨wantMove_iff OBSTACLES M s e, fun h => ?_, fun h => ?_, rfl⟩
  · rw [speedTarget, if_pos h]
  · rw [speedTarget, h]
    rfl

theorem C15_want_move_witness :
    wantMove OBSTACLES refMath loopStart plainFrame = false ∧
      speedTarget OBSTACLES refMath loopStart plainFrame = 0 :=
  ⟨parked_wantMove loopStart plainFrame parked_loopStart,
    (C15_want_move refMath loopStart plainFrame).2.2.1
      (parked_wantMove loopStart plainFrame parked_loopStart)⟩

/-- C15 (as stated) fails: right after `init` on the path [(17.4,10), (27.4,10)] the agent
faces its target ten units away, and the probe point (17.625, 10) is inside no obstacle
rectangle but outside World Bounds (`x > 17.5`); movement is permitted all the same. -/
theorem C15_counterexample :
    probe refMath rimStart = (17.625, 10) ∧
      pointInObstacle (probe refMath rimStart).1 (probe refMath rimStart).2 = false ∧
      ¬ inBounds ⟨(probe refMath rimStart).1, 0, (probe refMath rimStart).2⟩ ∧
      wantMove OBSTACLES refMath rimStart plainFrame = true := by
  have htgt : target rimStart = ⟨27.4, 10⟩ := rfl
  have hpos : rimStart.position = ⟨17.4, 0, 10⟩ := rfl
  have hstride : rimStart.data.stride = 0.45 := by simp [rimStart, init, DEFAULT_STRIDE_M]
  have hdx : dx rimStart = 10 := by rw [dx, htgt, hpos]; norm_num
  have hdz : dz rimStart = 0 := by rw [dz, htgt, hpos]; norm_num
  have hd : dist refMath rimStart = 10 := by
    rw [dist, hdx, hdz]
    exact refSqrt_axis (by norm_num)
  have hrot : rimStart.currentRotationY = 90 := by
    show refAtan2Deg (27.4 - 17.4) (10 - 10) = 90
    rw [sub_self]
    exact refAtan2Deg_east (by norm_num)
  have hhead : headY refMath rimStart plainFrame = 90 := by
    show refAtan2Deg (dx rimStart) (dz rimStart) = 90
    rw [hdx, hdz]
    exact refAtan2Deg_east (by norm_num)
  have hdiff : diff refMath rimStart plainFrame = 0 := by
    rw [diff, hhead, hrot, sub_self, normalizeDiff_of_mem (by norm_num) (by norm_num)]
  have hprobe : probe refMath rimStart = (17.625, 10) := by
    simp only [probe, hdx, hdz, hd, hstride, hpos]
    norm_num
  have hfree : pointInObstacle (probe refMath rimStart).1 (probe refMath rimStart).2 = false := by
    rw [hprobe]
    simp [pointInObstacle, pointInObstacleIn, OBSTACLES]
    norm_num
  refine ⟨hprobe, hfree, ?_, ?_⟩
  · rw [hprobe]
    simp [inBounds, BOUNDS]
    norm_num
  · rw [wantMove_iff, hdiff, hd]
    exact ⟨by norm_num, by norm_num, hfree⟩

/-! ## C16: the obstacle test -/

theorem pointInObstacleIn_iff (obs : List Rect) (x z : ℚ) :
    pointInObstacleIn obs x z = true ↔
      ∃ o ∈ obs, o.minX ≤ x ∧ x ≤ o.maxX ∧ o.minZ ≤ z ∧ z ≤ o.maxZ := by
  unfold pointInObstacleIn
  simp [List.any_eq_true]

/-- C16: `pointInObstacle(x, z)` is true exactly when some rectangle of `OBSTACLES`
contains the point with inclusive comparisons on all four sides; so every point on an
edge of a rectangle (its corners included) is inside, and the result is false exactly
when the point is outside all three rectangles. -/
theorem C16_point_in_obstacle (x z : ℚ) :
    (pointInObstacle x z = true ↔
      ∃ o ∈ OBSTACLES, o.minX ≤ x ∧ x ≤ o.maxX ∧ o.minZ ≤ z ∧ z ≤ o.maxZ) ∧
    (pointInObstacle x z = false ↔
      ¬ (-6.5 ≤ x ∧ x ≤ 6.5 ∧ -5.5 ≤ z ∧ z ≤ 5.5) ∧
      ¬ (7 ≤ x ∧ x ≤ 13 ∧ -2.5 ≤ z ∧ z ≤ 2.5) ∧
      ¬ (-2.2 ≤ x ∧ x ≤ 2.2 ∧ 6.4 ≤ z ∧ z ≤ 8.6)) ∧
    (∀ o ∈ OBSTACLES, o.minZ ≤ z → z ≤ o.maxZ →
      pointInObstacle o.minX z = true ∧ pointInObstacle o.maxX z = true) ∧
    (∀ o ∈ OBSTACLES, o.minX ≤ x → x ≤ o.maxX →
      pointInObstacle x o.minZ = true ∧ pointInObstacle x o.maxZ = true) := by
  have hiff := pointInObstacleIn_iff OBSTACLES
  have hwide : ∀ o ∈ OBSTACLES, o.minX ≤ o.maxX ∧ o.minZ ≤ o.maxZ := by
    intro o ho
    simp only [OBSTACLES, List.mem_cons, List.mem_singleton, List.not_mem_nil, or_false] at ho
    rcases ho with h | h | h <;> subst h <;> constructor <;> norm_num
  refine ⟨hiff x z, ?_, fun o ho h1 h2 => ?_, fun o ho h1 h2 => ?_⟩
  · rw [← Bool.not_eq_true, pointInObstacle, hiff]
    simp [OBSTACLES]
  · exact ⟨(hiff _ _).mpr ⟨o, ho, le_rfl, (hwide o ho).1, h1, h2⟩,
      (hiff _ _).mpr ⟨o, ho, (hwide o ho).1, le_rfl, h1, h2⟩⟩
  · exact ⟨(hiff _ _).mpr ⟨o, ho, h1, h2, le_rfl, (hwide o ho).2⟩,
      (hiff _ _).mpr ⟨o, ho, h1, h2, (hwide o ho).2, le_rfl⟩⟩

theorem C16_point_in_obstacle_witness :
    pointInObstacle 13 2.5 = true ∧ pointInObstacle 7 2.5 = true :=
  ⟨((C16_point_in_obstacle 0 2.5).2.2.1 ⟨7, 13, -2.5, 2.5⟩ (by simp [OBSTACLES])
      (by norm_num) (by norm_num)).2,
    ((C16_point_in_obstacle 0 2.5).2.2.1 ⟨7, 13, -2.5, 2.5⟩ (by simp [OBSTACLES])
      (by norm_num) (by norm_num)).1⟩

/-! ## C17: the braking ramp -/

theorem targetSpeed_eq_brakingRamp (M : MathLib) (s : State) (e : Env) :
    targetSpeed M s e = brakingRamp (targetSpeedRaw s e) (dist M s) := rfl

theorem clamp01_mono_lipschitz {u v : ℚ} (h : u ≤ v) :
    max 0 (min 1 u) ≤ max 0 (min 1 v) ∧ max 0 (min 1 v) - max 0 (min 1 u) ≤ v - u := by
  simp only [max_def, min_def]
  split_ifs <;> constructor <;> linarith

theorem brakingRamp_eq (raw d : ℚ) :
    brakingRamp raw d = raw * max 0 (min 1 ((d - 1.2) / 0.8)) := by
  unfold brakingRamp stopDist
  split_ifs with h1 h2
  · have hu : (d - 1.2) / 0.8 ≤ 0 := div_nonpos_of_nonpos_of_nonneg (by linarith) (by norm_num)
    rw [min_eq_right (by linarith), max_eq_left hu, mul_zero]
  · have hu0 : 0 ≤ (d - 1.2) / 0.8 := div_nonneg (by linarith) (by norm_num)
    have hu1 : (d - 1.2) / 0.8 ≤ 1 := by
      rw [div_le_one (by norm_num)]
      linarith
    rw [min_eq_right hu1, max_eq_right hu0]
    ring
  · have hu1 : 1 ≤ (d - 1.2) / 0.8 := by
      rw [le_div_iff₀ (by norm_num)]
      linarith
    rw [min_eq_left hu1, max_eq_right (by norm_num), mul_one]

/-- C17: for `targetSpeedRaw >= 0` the procedural target speed, as a function of `dist`,
is 0 for `dist <= 1.2`, `targetSpeedRaw * (dist - 1.2) / 0.8` for `1.2 < dist < 2.0` and
`targetSpeedRaw` for `dist >= 2.0`; the middle piece takes the values 0 at 1.2 and
`targetSpeedRaw` at 2.0 and the function changes by at most `targetSpeedRaw / 0.8` times
the change of `dist` (so it is continuous, in particular at 1.2 and 2.0); it is
non-decreasing in `dist` and always within `[0, targetSpeedRaw]`. -/
theorem C17_braking_ramp (raw : ℚ) (hraw : 0 ≤ raw) :
    (∀ (M : MathLib) (s : State) (e : Env),
      targetSpeed M s e = brakingRamp (targetSpeedRaw s e) (dist M s)) ∧
    (∀ d : ℚ, d ≤ 1.2 → brakingRamp raw d = 0) ∧
    (∀ d : ℚ, 1.2 < d → d < 2.0 → brakingRamp raw d = raw * (d - 1.2) / 0.8) ∧
    (∀ d : ℚ, 2.0 ≤ d → brakingRamp raw d = raw) ∧
    (raw * (1.2 - 1.2) / 0.8 = 0 ∧ raw * (2.0 - 1.2) / 0.8 = raw) ∧
    (∀ d d' : ℚ, |brakingRamp raw d' - brakingRamp raw d| ≤ raw / 0.8 * |d' - d|) ∧
    (∀ d d' : ℚ, d ≤ d' → brakingRamp raw d ≤ brakingRamp raw d') ∧
    (∀ d : ℚ, 0 ≤ brakingRamp raw d ∧ brakingRamp raw d ≤ raw) := by
  have hstep : ∀ d d' : ℚ, d ≤ d' →
      brakingRamp raw d ≤ brakingRamp raw d' ∧
        brakingRamp raw d' - brakingRamp raw d ≤ raw / 0.8 * (d' - d) := by
    intro d d' h
    have hu : (d - 1.2) / 0.8 ≤ (d' - 1.2) / 0.8 :=
      div_le_div_of_nonneg_right (by linarith) (by norm_num)
    obtain ⟨c1, c2⟩ := clamp01_mono_lipschitz hu
    rw [brakingRamp_eq, brakingRamp_eq]
    refine ⟨mul_le_mul_of_nonneg_left c1 hraw, ?_⟩
    have e1 : (d' - 1.2) / 0.8 - (d - 1.2) / 0.8 = (d' - d) / 0.8 := by ring
    have c3 := mul_le_mul_of_nonneg_left c2 hraw
    rw [e1] at c3
    have e2 : raw / 0.8 * (d' - d) = raw * ((d' - d) / 0.8) := by ring
    rw [e2]
    linarith
  refine ⟨fun M s e => rfl, fun d h => ?_, fun d h1 h2 => ?_, fun d h => ?_, ⟨by norm_num, ?_⟩,
    fun d d' => ?_, fun d d' h => (hstep d d' h).1, fun d => ?_⟩
  · rw [brakingRamp, stopDist, if_pos h]
  · rw [brakingRamp, stopDist, if_neg (not_le.mpr h1), if_pos (by linarith)]
  · rw [brakingRamp, stopDist, if_neg (by linarith), if_neg (by linarith)]
  · have : ((2.0 : ℚ) - 1.2) / 0.8 = 1 := by norm_num
    rw [mul_div_assoc, this, mul_one]
  · rcases le_total d d' with h | h
    · obtain ⟨m1, m2⟩ := hstep d d' h
      rw [abs_of_nonneg (sub_nonneg.mpr m1), abs_of_nonneg (sub_nonneg.mpr h)]
      exact m2
    · obtain ⟨m1, m2⟩ := hstep d' d h
      rw [abs_sub_comm, abs_sub_comm d' d, abs_of_nonneg (sub_nonneg.mpr m1),
        abs_of_nonneg (sub_nonneg.mpr h)]
      exact m2
  · rw [brakingRamp_eq]
    have h0 : (0 : ℚ) ≤ max 0 (min 1 ((d - 1.2) / 0.8)) := le_max_left _ _
    have h1 : max 0 (min 1 ((d - 1.2) / 0.8)) ≤ (1 : ℚ) :=
      max_le (by norm_num) (min_le_left _ _)
    exact ⟨mul_nonneg hraw h0, by nlinarith [mul_le_mul_of_nonneg_left h1 hraw]⟩

theorem C17_braking_ramp_witness :
    (0 : ℚ) ≤ 0.45 ∧ brakingRamp 0.45 1.6 = 0.45 * (1.6 - 1.2) / 0.8 :=
  ⟨by norm_num, (C17_braking_ramp 0.45 (by norm_num)).2.2.1 1.6 (by norm_num) (by norm_num)⟩

/-! ## C18: root motion and obstacles -/

/-- C18: in root-motion mode (path length at least 2, valid waypoint index) the tick
writes the bounds-clamped current position, at ground height, whether or not it lies in an
obstacle rectangle, and the waypoint index after the tick is `(index + a + b) mod L` with
`a = 1` iff `dist <= 0.6` and `b = 1` iff the clamped position is inside an obstacle; with
both conditions the index advances by two. -/
theorem C18_root_motion_index (M : MathLib) (s : State) (e : Env) (hlen : 2 ≤ s.path.length)
    (hr : hasRootMotion e = true) (hw : s.waypointIndex < s.path.length) :
    (tick M s e).position =
      { clampToBounds s.position with y := GROUND_Y + groundOffsetOf s } ∧
    (tick M s e).waypointIndex =
      (s.waypointIndex + (if dist M s ≤ 0.6 then 1 else 0) +
        (if pointInObstacle (clampToBounds s.position).x (clampToBounds s.position).z = true
          then 1 else 0)) % s.path.length ∧
    (dist M s ≤ 0.6 →
      pointInObstacle (clampToBounds s.position).x (clampToBounds s.position).z = true →
      (tick M s e).waypointIndex = (s.waypointIndex + 2) % s.path.length) := by
  have hidx : (tick M s e).waypointIndex =
      (s.waypointIndex + (if dist M s ≤ 0.6 then 1 else 0) +
        (if pointInObstacle (clampToBounds s.position).x (clampToBounds s.position).z = true
          then 1 else 0)) % s.path.length := by
    rw [tick, tickIn_root _ _ _ _ hlen hr, rootMotionBranch_waypointIndex]
    unfold pointInObstacle
    by_cases h1 : dist M s ≤ 0.6 <;>
      by_cases h2 : pointInObstacleIn OBSTACLES (clampToBounds s.position).x
        (clampToBounds s.position).z = true
    · simp only [h1, h2, if_true]
      rw [Nat.mod_add_mod]
    · simp only [h1, h2, if_true, if_false]
      rfl
    · simp only [h1, h2, if_true, if_false]
    · simp only [h1, h2, if_false]
      exact (Nat.mod_eq_of_lt hw).symm
  refine ⟨?_, hidx, fun h1 h2 => ?_⟩
  · rw [tick, tickIn_root _ _ _ _ hlen hr, rootMotionBranch_position]
  · rw [hidx, if_pos h1, if_pos h2]

theorem C18_root_motion_index_witness :
    2 ≤ villaStart.path.length ∧ hasRootMotion rootFrame = true ∧
      villaStart.waypointIndex < villaStart.path.length ∧
      (tick refMath villaStart rootFrame).waypointIndex = 2 := by
  have htgt : target villaStart = ⟨0.5, 0⟩ := rfl
  have hpos : villaStart.position = ⟨0, 0, 0⟩ := rfl
  have hdx : dx villaStart = 0.5 := by rw [dx, htgt, hpos]; norm_num
  have hdz : dz villaStart = 0 := by rw [dz, htgt, hpos]; norm_num
  have hd : dist refMath villaStart = 0.5 := by
    rw [dist, hdx, hdz]
    exact refSqrt_axis (by norm_num)
  have hin : pointInObstacle (clampToBounds villaStart.position).x
      (clampToBounds villaStart.position).z = true := by
    rw [hpos]
    simp [clampToBounds, BOUNDS, pointInObstacle, pointInObstacleIn, OBSTACLES]
    norm_num
  exact ⟨by decide, rfl, by decide,
    (C18_root_motion_index refMath villaStart rootFrame (by decide) rfl (by decide)).2.2
      (by rw [hd]; norm_num) hin⟩

/-! ## C19: the move/idle signal in root-motion mode -/

theorem setAnimationTimeScale_timeScale_congr (e : Env) (s t : State) (c : ℚ)
    (h : s.timeScale = t.timeScale) :
    (setAnimationTimeScale e s c).timeScale = (setAnimationTimeScale e t c).timeScale := by
  unfold setAnimationTimeScale
  split
  · split_ifs
    · rfl
    · exact h
  · exact h

theorem rootMotionBranch_timeScale (obs : List Rect) (M : MathLib) (s : State) (e : Env) :
    (rootMotionBranch obs M s e).timeScale =
      (setAnimationTimeScale e s
        (if dist M s ≤ 0.6 then s.data.idleTimeScale
          else if angleOk M s e = true then s.data.moveTimeScale
          else s.data.idleTimeScale)).timeScale := by
  unfold rootMotionBranch skipWaypoint
  simp only []
  split_ifs <;> exact setAnimationTimeScale_timeScale_congr e _ _ _ rfl

/-- C19: in root-motion mode, if `dist <= 0.6` the tick sets `moving` to false and calls
`_setAnimationTimeScale` with the idle time-scale; otherwise `moving` is true exactly when
the pre-turn heading difference satisfies `|diff| < 38`, and the call is made with
`moveTimeScale` when moving and `idleTimeScale` when not.  The position written is the
clamp of the position read, at ground height: no displacement toward the target is added,
and inside World Bounds `x` and `z` are unchanged. -/
theorem C19_root_motion_signal (M : MathLib) (s : State) (e : Env) (hlen : 2 ≤ s.path.length)
    (hr : hasRootMotion e = true) :
    (dist M s ≤ 0.6 →
      (tick M s e).moving = false ∧
      (tick M s e).timeScale = (setAnimationTimeScale e s s.data.idleTimeScale).timeScale) ∧
    (¬ dist M s ≤ 0.6 →
      ((tick M s e).moving = true ↔ |diff M s e| < 38) ∧
      (tick M s e).timeScale =
        (setAnimationTimeScale e s
          (if (tick M s e).moving = true then s.data.moveTimeScale
            else s.data.idleTimeScale)).timeScale) ∧
    (∀ (m : Mixer) (c : ℚ), e.mixer = some m → m.activeAction = true →
      (setAnimationTimeScale e s c).timeScale = c) ∧
    (tick M s e).position =
      { clampToBounds s.position with y := GROUND_Y + groundOffsetOf s } ∧
    (inBounds s.position →
      (tick M s e).position.x = s.position.x ∧ (tick M s e).position.z = s.position.z) := by
  have hmv : (tick M s e).moving = if dist M s ≤ 0.6 then false else angleOk M s e := by
    rw [tick, tickIn_root _ _ _ _ hlen hr, rootMotionBranch_moving]
  have hts := rootMotionBranch_timeScale OBSTACLES M s e
  have hpos : (tick M s e).position =
      { clampToBounds s.position with y := GROUND_Y + groundOffsetOf s } := by
    rw [tick, tickIn_root _ _ _ _ hlen hr, rootMotionBranch_position]
  refine ⟨fun h => ?_, fun h => ?_, fun m c hm ha => ?_, hpos, fun hb => ?_⟩
  · refine ⟨by rw [hmv, if_pos h], ?_⟩
    rw [tick, tickIn_root _ _ _ _ hlen hr, hts, if_pos h]
  · refine ⟨?_, ?_⟩
    · rw [hmv, if_neg h, angleOk, ANGLE_THRESHOLD_DEG, decide_eq_true_iff]
    · rw [hmv, if_neg h, tick, tickIn_root _ _ _ _ hlen hr, hts, if_neg h]
  · unfold setAnimationTimeScale
    rw [hm]
    simp [ha]
  · rw [hpos, clampToBounds_of_inBounds hb]
    exact ⟨rfl, rfl⟩

theorem C19_root_motion_signal_witness :
    2 ≤ villaStart.path.length ∧ hasRootMotion rootFrame = true ∧
      (tick refMath villaStart rootFrame).position.x = villaStart.position.x ∧
      (tick refMath villaStart rootFrame).position.z = villaStart.position.z :=
  ⟨by decide, rfl,
    (C19_root_motion_signal refMath villaStart rootFrame (by decide) rfl).2.2.2.2
      (by simp [inBounds, villaStart, init, BOUNDS]; norm_num)⟩

/-! ## C20: no division by zero -/

theorem targetSpeedRawChecked_eq (ok : DivSite → ℚ → Bool) (s : State) (e : Env)
    (hclip : ∀ d : ℚ, 0 < d → ok DivSite.byClip d = true) :
    targetSpeedRawChecked ok s e = some (targetSpeedRaw s e) := by
  unfold targetSpeedRawChecked targetSpeedRaw checkedDiv
  by_cases h : clipDuration e > 0
  · rw [if_pos h, if_pos h, if_pos (hclip _ h)]
  · rw [if_neg h, if_neg h]

theorem wantMoveChecked_eq (ok : DivSite → ℚ → Bool) (obs : List Rect) (M : MathLib)
    (s : State) (e : Env) (hdist : ∀ d : ℚ, stopDist < d → ok DivSite.byDist d = true) :
    wantMoveChecked ok obs M s e = some (wantMove obs M s e) := by
  unfold wantMoveChecked wantMove checkedDiv probe
  by_cases ha : angleOk M s e = true
  · by_cases hd : dist M s > stopDist
    · simp [ha, hd, hdist _ hd]
    · simp [ha, hd]
  · simp [ha]

theorem newSpeedChecked_eq (ok : DivSite → ℚ → Bool) (obs : List Rect) (M : MathLib)
    (s : State) (e : Env) (hclip : ∀ d : ℚ, 0 < d → ok DivSite.byClip d = true)
    (hdist : ∀ d : ℚ, stopDist < d → ok DivSite.byDist d = true) :
    newSpeedChecked ok obs M s e = some (newSpeed obs M s e) := by
  unfold newSpeedChecked
  rw [targetSpeedRawChecked_eq ok s e hclip, wantMoveChecked_eq ok obs M s e hdist]
  rfl

theorem proceduralChecked_eq (ok : DivSite → ℚ → Bool) (obs : List Rect) (M : MathLib)
    (s : State) (e : Env) (hclip : ∀ d : ℚ, 0 < d → ok DivSite.byClip d = true)
    (hdist : ∀ d : ℚ, stopDist < d → ok DivSite.byDist d = true) :
    proceduralChecked ok obs M s e = some (proceduralBranch obs M s e) := by
  unfold proceduralChecked
  rw [newSpeedChecked_eq ok obs M s e hclip hdist]
  simp only [Option.some_bind]
  by_cases ha : arrives obs M s e
  · rw [proceduralBranch_skip obs M s e (Or.inl ha)]
    unfold arrives at ha
    rw [if_pos ha]
  · have hfar : stopDist < dist M s := by
      unfold arrives at ha
      push_neg at ha
      exact ha.2
    have ha' : ¬ (dist M s ≤ newSpeed obs M s e * dtSec e * 2 ∨ dist M s ≤ stopDist) := ha
    rw [if_neg ha']
    simp only [checkedDiv, hdist _ hfar, if_true, Option.some_bind]
    by_cases hb : blocked obs M s e
    · rw [proceduralBranch_skip obs M s e (Or.inr hb)]
      unfold blocked landing at hb
      rw [if_pos hb]
    · rw [proceduralBranch_commit obs M s e ha hb]
      unfold blocked landing at hb
      rw [if_neg hb]
      simp [landing]

theorem tickChecked_eq (ok : DivSite → ℚ → Bool) (obs : List Rect) (M : MathLib)
    (s : State) (e : Env) (hclip : ∀ d : ℚ, 0 < d → ok DivSite.byClip d = true)
    (hdist : ∀ d : ℚ, stopDist < d → ok DivSite.byDist d = true) :
    tickChecked ok obs M s e = some (tickIn obs M s e) := by
  unfold tickChecked tickIn
  split_ifs
  · rfl
  · rfl
  · exact proceduralChecked_eq ok obs M s e hclip hdist

/-- C20: no tick divides by zero.  The tick with its divisions by `clipDuration` and
`dist` checked never fails and returns the state of `tick`, both when a division fails on
a zero divisor and when it fails on any clip duration that is not positive and any
distance that is not above the stop distance 1.2: so `stride / clipDuration` is evaluated
only for `clipDuration > 0`, and `dx / dist`, `dz / dist` only for `dist > 1.2`.  In
particular a procedural tick with the agent exactly on its target (`dist = 0`), where
evaluating `dx / dist` would fail, completes by advancing the waypoint index and leaves
the position unchanged. -/
theorem C20_no_division_by_zero (M : MathLib) (s : State) (e : Env) :
    tickChecked nonzeroDivisor OBSTACLES M s e = some (tick M s e) ∧
    tickChecked guardedDivisor OBSTACLES M s e = some (tick M s e) ∧
    (2 ≤ s.path.length → hasRootMotion e = false → dist M s = 0 →
      checkedDiv nonzeroDivisor DivSite.byDist (dx s) (dist M s) = none ∧
      (tick M s e).waypointIndex = (s.waypointIndex + 1) % s.path.length ∧
      (tick M s e).position = s.position) := by
  refine ⟨?_, ?_, fun hlen hr h0 => ?_⟩
  · refine tickChecked_eq nonzeroDivisor OBSTACLES M s e (fun d hd => ?_) (fun d hd => ?_)
    · exact decide_eq_true hd.ne'
    · have : (0 : ℚ) < d := lt_trans (by norm_num [stopDist]) hd
      exact decide_eq_true this.ne'
  · exact tickChecked_eq guardedDivisor OBSTACLES M s e (fun d hd => decide_eq_true hd)
      (fun d hd => decide_eq_true hd)
  · have ha : arrives OBSTACLES M s e := by
      unfold arrives
      right
      rw [h0, stopDist]
      norm_num
    refine ⟨?_, ?_, ?_⟩
    · unfold checkedDiv nonzeroDivisor
      rw [h0]
      simp
    · rw [tick, tickIn_procedural _ _ _ _ hlen hr,
        proceduralBranch_waypointIndex_skip _ _ _ _ (Or.inl ha)]
    · rw [tick, tickIn_procedural _ _ _ _ hlen hr,
        proceduralBranch_position_skip _ _ _ _ (Or.inl ha)]

theorem C20_no_division_by_zero_witness :
    2 ≤ onTargetStart.path.length ∧ hasRootMotion plainFrame = false ∧
      dist refMath onTargetStart = 0 ∧
      (tick refMath onTargetStart plainFrame).waypointIndex = 1 ∧
      (tick refMath onTargetStart plainFrame).position = onTargetStart.position := by
  have htgt : target onTargetStart = ⟨15, 5⟩ := rfl
  have hpos : onTargetStart.position = ⟨15, 0, 5⟩ := rfl
  have hdx : dx onTargetStart = 0 := by rw [dx, htgt, hpos]; norm_num
  have hdz : dz onTargetStart = 0 := by rw [dz, htgt, hpos]; norm_num
  have hd : dist refMath onTargetStart = 0 := by
    rw [dist, hdx, hdz]
    exact refSqrt_axis le_rfl
  exact ⟨by decide, rfl, hd,
    ((C20_no_division_by_zero refMath onTargetStart plainFrame).2.2 (by decide) rfl hd).2⟩

/-! ## C21: the ground offset -/

theorem proceduralBranch_groundOffset (obs : List Rect) (M : MathLib) (s : State) (e : Env) :
    (proceduralBranch obs M s e).groundOffset = some (groundOffsetOf s) := by
  by_cases h : arrives obs M s e ∨ blocked obs M s e
  · rw [proceduralBranch_skip obs M s e h]
    simp [turned]
  · push_neg at h
    rw [proceduralBranch_commit obs M s e h.1 h.2]
    simp [turned]

theorem tickIn_groundOffset (obs : List Rect) (M : MathLib) (s : State) (e : Env)
    (hlen : 2 ≤ s.path.length) :
    (tickIn obs M s e).groundOffset = some (groundOffsetOf s) := by
  cases hr : hasRootMotion e
  · rw [tickIn_procedural _ _ _ _ hlen hr, proceduralBranch_groundOffset]
  · rw [tickIn_root _ _ _ _ hlen hr, rootMotionBranch_groundOffset]

theorem tickIn_groundOffset_of_some (obs : List Rect) (M : MathLib) (s : State) (e : Env)
    (g : ℚ) (hg : s.groundOffset = some g) : (tickIn obs M s e).groundOffset = some g := by
  by_cases hlen : 2 ≤ s.path.length
  · rw [tickIn_groundOffset _ _ _ _ hlen, groundOffsetOf, hg]
  · rw [tickIn_short _ _ _ _ (by omega), hg]

theorem runIn_groundOffset_of_some (obs : List Rect) (M : MathLib) (s : State)
    (es : List Env) (g : ℚ) (hg : s.groundOffset = some g) :
    (runIn obs M s es).groundOffset = some g := by
  induction es generalizing s with
  | nil => exact hg
  | cons e es ih =>
    rw [runIn, List.foldl_cons]
    exact ih _ (tickIn_groundOffset_of_some obs M s e g hg)

/-- C21: the ground offset is captured by the first tick that passes the path-length
guard, as `position.y - GROUND_Y` (a tick on a shorter path leaves it uncaptured); once
captured it is never changed by any run of ticks; and every position written by a tick, in
root-motion mode and in procedural mode, has `y = GROUND_Y + groundOffset`, whatever the
`y` of the position read at the start of that tick. -/
theorem C21_ground_offset (M : MathLib) (s : State) (e : Env) :
    (2 ≤ s.path.length → s.groundOffset = none →
      (tick M s e).groundOffset = some (s.position.y - GROUND_Y)) ∧
    (s.path.length < 2 → (tick M s e).groundOffset = s.groundOffset) ∧
    (∀ g : ℚ, s.groundOffset = some g →
      ∀ es : List Env, (run M s es).groundOffset = some g) ∧
    (2 ≤ s.path.length → hasRootMotion e = true →
      (tick M s e).groundOffset = some (groundOffsetOf s) ∧
      (tick M s e).position.y = GROUND_Y + groundOffsetOf s) ∧
    (2 ≤ s.path.length → hasRootMotion e = false →
      ¬ arrives OBSTACLES M s e → ¬ blocked OBSTACLES M s e →
      (tick M s e).groundOffset = some (groundOffsetOf s) ∧
      (tick M s e).position.y = GROUND_Y + groundOffsetOf s) ∧
    (∀ g : ℚ, s.groundOffset = some g → groundOffsetOf s = g) := by
  refine ⟨fun hlen hg => ?_, fun hlen => ?_, fun g hg es => ?_, fun hlen hr => ?_,
    fun hlen hr ha hb => ?_, fun g hg => ?_⟩
  · rw [tick, tickIn_groundOffset _ _ _ _ hlen, groundOffsetOf, hg]
  · rw [tick, tickIn_short _ _ _ _ hlen]
  · exact runIn_groundOffset_of_some OBSTACLES M s es g hg
  · refine ⟨tickIn_groundOffset _ _ _ _ hlen, ?_⟩
    rw [tick, tickIn_root _ _ _ _ hlen hr, rootMotionBranch_position]
  · refine ⟨tickIn_groundOffset _ _ _ _ hlen, ?_⟩
    rw [tick, tickIn_procedural _ _ _ _ hlen hr, proceduralBranch_position_commit _ _ _ _ ha hb]
  · rw [groundOffsetOf, hg]

theorem C21_ground_offset_witness :
    2 ≤ liftedState.path.length ∧ hasRootMotion rootFrame = true ∧
      liftedState.position.y = 5 ∧ groundOffsetOf liftedState = 0.3 ∧
      (tick refMath liftedState rootFrame).groundOffset = some (groundOffsetOf liftedState) ∧
      (tick refMath liftedState rootFrame).position.y =
        GROUND_Y + groundOffsetOf liftedState :=
  ⟨by decide, rfl, rfl, (C21_ground_offset refMath liftedState rootFrame).2.2.2.2.2 0.3 rfl,
    (C21_ground_offset refMath liftedState rootFrame).2.2.2.1 (by decide) rfl⟩

/-! ## C22: the default configuration -/

/-- The landing point of a step of length at most `B` lies within `B` of the position,
when `dist` is positive and not below the true distance. -/
theorem landing_near (obs : List Rect) (M : MathLib) (s : State) (e : Env) {B : ℚ}
    (hd : 0 < dist M s) (hM : dx s * dx s + dz s * dz s ≤ dist M s * dist M s)
    (hm0 : 0 ≤ newSpeed obs M s e * dtSec e) (hm1 : newSpeed obs M s e * dtSec e ≤ B) :
    ((landing obs M s e).x - s.position.x) ^ 2 + ((landing obs M s e).z - s.position.z) ^ 2 ≤
      B ^ 2 := by
  have hu := bearing_sq_le_one hd hM
  simp only [landing]
  have e1 : (s.position.x + dx s / dist M s * (newSpeed obs M s e * dtSec e) -
      s.position.x) ^ 2 + (s.position.z + dz s / dist M s *
      (newSpeed obs M s e * dtSec e) - s.position.z) ^ 2 =
      ((dx s / dist M s) ^ 2 + (dz s / dist M s) ^ 2) *
        (newSpeed obs M s e * dtSec e) ^ 2 := by ring
  have e2 : ((dx s / dist M s) ^ 2 + (dz s / dist M s) ^ 2) *
      (newSpeed obs M s e * dtSec e) ^ 2 ≤ 1 * (newSpeed obs M s e * dtSec e) ^ 2 :=
    mul_le_mul_of_nonneg_right hu (sq_nonneg _)
  have e3 : (newSpeed obs M s e * dtSec e) ^ 2 ≤ B ^ 2 := pow_le_pow_left₀ hm0 hm1 2
  linarith

theorem abs_le_of_sq_add_sq_le {a b B : ℚ} (hB : 0 ≤ B) (h : a ^ 2 + b ^ 2 ≤ B ^ 2) :
    |a| ≤ B ∧ |b| ≤ B := by
  constructor
  · exact abs_le_of_sq_le_sq' (by nlinarith [sq_nonneg b]) hB |> abs_le.mpr
  · exact abs_le_of_sq_le_sq' (by nlinarith [sq_nonneg a]) hB |> abs_le.mpr

/-- One tick of the default configuration: procedural mode, `dt >= 0`, any camera. -/
theorem defaultParked_tick (M : MathLib)
    (hM : ∀ a b : ℚ, a * a + b * b ≤ M.sqrt (a * a + b * b) * M.sqrt (a * a + b * b))
    (y : ℚ) (s : State) (e : Env) (hdt : 0 ≤ e.dt) (hmix : e.mixer = none)
    (h : DefaultParked y s) :
    DefaultParked y (tick M s e) ∧
      (tick M s e).waypointIndex = (s.waypointIndex + 1) % 9 ∧
      (arrives OBSTACLES M s e ∨
        (((landing OBSTACLES M s e).x - 2) ^ 2 + ((landing OBSTACLES M s e).z - 7) ^ 2 ≤
            0.04725 ^ 2 ∧
          pointInObstacle (landing OBSTACLES M s e).x (landing OBSTACLES M s e).z = true ∧
          blocked OBSTACLES M s e)) := by
  obtain ⟨hp, hs, hpos, hmv⟩ := h
  have hlen : 2 ≤ s.path.length := by rw [hp]; decide
  have hL : s.path.length = 9 := by rw [hp]; rfl
  have hr : hasRootMotion e = false := by unfold hasRootMotion; rw [hmix]
  have hc : clipDuration e = 1 := by unfold clipDuration; rw [hmix]
  have hraw : targetSpeedRaw s e = 0.45 := by
    rw [targetSpeedRaw, hc, if_pos one_pos, div_one, hs]
  have hv0 := newSpeed_nonneg OBSTACLES M s e
  have hv1 := newSpeed_le OBSTACLES M s e (by rw [hraw]; norm_num)
  rw [hraw] at hv1
  have hd0 := dtSec_nonneg hdt
  have hd1 := dtSec_le e
  have hm0 : 0 ≤ newSpeed OBSTACLES M s e * dtSec e := mul_nonneg hv0 hd0
  have hm1 : newSpeed OBSTACLES M s e * dtSec e ≤ 0.04725 := by
    nlinarith [mul_le_mul_of_nonneg_left hd1 hv0]
  have hkey : arrives OBSTACLES M s e ∨
      (((landing OBSTACLES M s e).x - 2) ^ 2 + ((landing OBSTACLES M s e).z - 7) ^ 2 ≤
          0.04725 ^ 2 ∧
        pointInObstacle (landing OBSTACLES M s e).x (landing OBSTACLES M s e).z = true ∧
        blocked OBSTACLES M s e) := by
    by_cases ha : arrives OBSTACLES M s e
    · exact Or.inl ha
    · right
      have hfar : 0 < dist M s := by
        unfold arrives at ha
        push_neg at ha
        have := ha.2
        unfold stopDist at this
        linarith
      have hnear := landing_near OBSTACLES M s e hfar (hM _ _) hm0 hm1
      rw [hpos] at hnear
      obtain ⟨hx, hz⟩ := abs_le_of_sq_add_sq_le (by norm_num) hnear
      rw [abs_le] at hx hz
      have hin : pointInObstacle (landing OBSTACLES M s e).x (landing OBSTACLES M s e).z =
          true := by
        rw [pointInObstacle, pointInObstacleIn_iff]
        refine ⟨⟨-2.2, 2.2, 6.4, 8.6⟩, by simp [OBSTACLES], ?_, ?_, ?_, ?_⟩ <;>
          simp only <;> linarith [hx.1, hx.2, hz.1, hz.2]
      have hbd : inBounds (landing OBSTACLES M s e) := by
        simp only [inBounds, BOUNDS]
        refine ⟨?_, ?_, ?_, ?_⟩ <;> linarith [hx.1, hx.2, hz.1, hz.2]
      refine ⟨hnear, hin, ?_⟩
      unfold blocked
      rw [clampToBounds_of_inBounds hbd]
      exact hin
  have hskip : arrives OBSTACLES M s e ∨ blocked OBSTACLES M s e := by
    rcases hkey with h1 | h1
    · exact Or.inl h1
    · exact Or.inr h1.2.2
  refine ⟨⟨?_, ?_, ?_, ?_⟩, ?_, hkey⟩
  · rw [tick, tickIn_path, hp]
  · rw [tick, tickIn_data, hs]
  · rw [tick, tickIn_procedural _ _ _ _ hlen hr, proceduralBranch_position_skip _ _ _ _ hskip,
      hpos]
  · rw [tick, tickIn_procedural _ _ _ _ hlen hr, proceduralBranch_moving_skip _ _ _ _ hskip]
  · rw [tick, tickIn_procedural _ _ _ _ hlen hr,
      proceduralBranch_waypointIndex_skip _ _ _ _ hskip, hL]

theorem defaultParked_run (M : MathLib)
    (hM : ∀ a b : ℚ, a * a + b * b ≤ M.sqrt (a * a + b * b) * M.sqrt (a * a + b * b))
    (y : ℚ) (s : State) (es : List Env) (hes : ∀ e ∈ es, 0 ≤ e.dt ∧ e.mixer = none)
    (h : DefaultParked y s) (hw : s.waypointIndex < 9) :
    DefaultParked y (run M s es) ∧
      (run M s es).waypointIndex = (s.waypointIndex + es.length) % 9 := by
  induction es generalizing s with
  | nil => exact ⟨h, (Nat.mod_eq_of_lt hw).symm⟩
  | cons e es ih =>
    obtain ⟨h1, h2, _⟩ :=
      defaultParked_tick M hM y s e (hes e (List.mem_cons_self _ _)).1
        (hes e (List.mem_cons_self _ _)).2 h
    have hrun : run M s (e :: es) = run M (tick M s e) es := rfl
    obtain ⟨i1, i2⟩ := ih (tick M s e) (fun e' he' => hes e' (List.mem_cons_of_mem _ he')) h1
      (by rw [h2]; exact Nat.mod_lt _ (by norm_num))
    rw [hrun]
    refine ⟨i1, ?_⟩
    rw [i2, h2, List.length_cons]
    omega

theorem defaultParked_init (M : MathLib) (p r : Vec3) (t : ℚ) :
    DefaultParked p.y (init M defaultData p r t) ∧
      (init M defaultData p r t).waypointIndex = 0 := by
  refine ⟨⟨rfl, ?_, ?_, rfl⟩, rfl⟩
  · simp [init, defaultData, DEFAULT_STRIDE_M]
  · simp [init, defaultData, defaultPath]

/-- In the default configuration the tick is the heading update, the speed update and one
advance of the waypoint index, nothing else. -/
theorem defaultParked_tick_eq (M : MathLib)
    (hM : ∀ a b : ℚ, a * a + b * b ≤ M.sqrt (a * a + b * b) * M.sqrt (a * a + b * b))
    (y : ℚ) (s : State) (e : Env) (hdt : 0 ≤ e.dt) (hmix : e.mixer = none)
    (h : DefaultParked y s) :
    tick M s e =
      { turned M s e with
        currentSpeed := newSpeed OBSTACLES M s e
        waypointIndex := (s.waypointIndex + 1) % 9 } := by
  obtain ⟨_, _, hkey⟩ := defaultParked_tick M hM y s e hdt hmix h
  obtain ⟨hp, _, _, hmv⟩ := h
  have hlen : 2 ≤ s.path.length := by rw [hp]; decide
  have hL : s.path.length = 9 := by rw [hp]; rfl
  have hr : hasRootMotion e = false := by unfold hasRootMotion; rw [hmix]
  have hskip : arrives OBSTACLES M s e ∨ blocked OBSTACLES M s e := by
    rcases hkey with h1 | h1
    · exact Or.inl h1
    · exact Or.inr h1.2.2
  rw [tick, tickIn_procedural _ _ _ _ hlen hr, proceduralBranch_skip _ _ _ _ hskip]
  unfold skipWaypoint setAnimationTimeScale
  rw [hmix]
  simp [advance, turned, hL, hmv]

/-- C22: with the default configuration (built-in path, default stride 0.45, no
animation-mixer, so procedural mode with clip duration 1) the start waypoint (2, 7) is
inside an obstacle rectangle, and for every sequence of ticks with `dt >= 0` and any
camera the position stays (2, 7) at the height of the entity, while the waypoint index
advances by one per tick around the nine waypoints.  Each further tick either returns
early at the arrival test or computes a landing point within 0.04725 of (2, 7), inside
the obstacle, and returns at the obstacle test; after the heading and speed updates of
the tick the waypoint index is the only field it writes. -/
theorem C22_default_config_parked (M : MathLib)
    (hM : ∀ a b : ℚ, a * a + b * b ≤ M.sqrt (a * a + b * b) * M.sqrt (a * a + b * b))
    (p r : Vec3) (t : ℚ) (es : List Env) (e : Env)
    (hes : ∀ e' ∈ es, 0 ≤ e'.dt ∧ e'.mixer = none) (hdt : 0 ≤ e.dt) (hmix : e.mixer = none) :
    pointInObstacle 2 7 = true ∧
    (init M defaultData p r t).position = ⟨2, p.y, 7⟩ ∧
    (run M (init M defaultData p r t) es).position = ⟨2, p.y, 7⟩ ∧
    (run M (init M defaultData p r t) es).waypointIndex = es.length % 9 ∧
    (arrives OBSTACLES M (run M (init M defaultData p r t) es) e ∨
      (((landing OBSTACLES M (run M (init M defaultData p r t) es) e).x - 2) ^ 2 +
          ((landing OBSTACLES M (run M (init M defaultData p r t) es) e).z - 7) ^ 2 ≤
            0.04725 ^ 2 ∧
        pointInObstacle (landing OBSTACLES M (run M (init M defaultData p r t) es) e).x
          (landing OBSTACLES M (run M (init M defaultData p r t) es) e).z = true ∧
        blocked OBSTACLES M (run M (init M defaultData p r t) es) e)) ∧
    tick M (run M (init M defaultData p r t) es) e =
      { turned M (run M (init M defaultData p r t) es) e with
        currentSpeed := newSpeed OBSTACLES M (run M (init M defaultData p r t) es) e
        waypointIndex := ((run M (init M defaultData p r t) es).waypointIndex + 1) % 9 } := by
  obtain ⟨h0, hw0⟩ := defaultParked_init M p r t
  obtain ⟨hN, hwN⟩ := defaultParked_run M hM p.y _ es hes h0 (by rw [hw0]; norm_num)
  have hin : pointInObstacle 2 7 = true := by
    simp [pointInObstacle, pointInObstacleIn, OBSTACLES]
    norm_num
  refine ⟨hin, h0.2.2.1, hN.2.2.1, ?_, (defaultParked_tick M hM p.y _ e hdt hmix hN).2.2,
    defaultParked_tick_eq M hM p.y _ e hdt hmix hN⟩
  rw [hwN, hw0, Nat.zero_add]

theorem C22_default_config_parked_witness :
    (∀ e' ∈ [plainFrame, northCamFrame, steadyFrame 100], 0 ≤ e'.dt ∧ e'.mixer = none) ∧
      (run refMath (init refMath defaultData ⟨0, 0.3, 0⟩ ⟨0, 0, 0⟩ 1)
        [plainFrame, northCamFrame, steadyFrame 100]).position = ⟨2, 0.3, 7⟩ ∧
      (run refMath (init refMath defaultData ⟨0, 0.3, 0⟩ ⟨0, 0, 0⟩ 1)
        [plainFrame, northCamFrame, steadyFrame 100]).waypointIndex = 3 := by
  have hes : ∀ e' ∈ [plainFrame, northCamFrame, steadyFrame 100],
      0 ≤ e'.dt ∧ e'.mixer = none := by
    intro e' he'
    simp only [List.mem_cons, List.mem_singleton, List.not_mem_nil, or_false] at he'
    rcases he' with h | h | h <;> subst h <;>
      exact ⟨by simp [plainFrame, northCamFrame, steadyFrame], rfl⟩
  have hM : ∀ a b : ℚ,
      a * a + b * b ≤ refMath.sqrt (a * a + b * b) * refMath.sqrt (a * a + b * b) :=
    fun a b => le_refSqrt_sq _ (add_nonneg (mul_self_nonneg _) (mul_self_nonneg _))
  have h := C22_default_config_parked refMath hM ⟨0, 0.3, 0⟩ ⟨0, 0, 0⟩ 1
    [plainFrame, northCamFrame, steadyFrame 100] plainFrame hes (by simp [plainFrame]) rfl
  exact ⟨hes, h.2.2.1, h.2.2.2.1⟩

end PetRoam
